import Mathlib

/-!
Verification of the integration-manager lifecycle core.

This file gives a shallow embedding of the Python modules
`backup_service.py`, `migration_service.py` and the update/install
entry points of `web_server.py`, and proves (or refutes) the stated
properties of the setup-flow orchestrator: field extraction, backup
payload normalization, the backup sub-flow's session handling, the
operation lock, and the update pipeline's decision points.

Conventions of the embedding:
- Python values that flow through setup responses and JSON payloads are
  modelled by `PyVal` (None, bool, int, str, list, dict).  Floats do not
  occur in the verified properties and are not modelled.
- Python exceptions are modelled by `PyExc`; a function that can raise
  returns `Except PyExc _`.  Calls into the remote client either return
  a value or raise the client's error type; such outcomes are inputs of
  the model (`Eff`).
- `dict.get`, iteration, `len`, and truthiness follow Python semantics:
  calling a dict method on a non-dict raises AttributeError, iterating a
  non-iterable raises TypeError, `len` of a non-sized value raises
  TypeError.
-/

/-- A Python value as it appears in setup responses and JSON payloads.
JSON floats are outside the model; all numbers are integers. -/
inductive PyVal where
  | none
  | bool (b : Bool)
  | int (i : Int)
  | str (s : String)
  | list (xs : List PyVal)
  | dict (entries : List (String × PyVal))

/-- The Python exception classes relevant to the embedded code. -/
inductive PyExc where
  | keyError
  | typeError
  | indexError
  | attributeError
  | jsonDecodeError
deriving DecidableEq

/-- Outcome of a call into the remote client: a returned value, or a
raised client error (SyncAPIError, or any exception for blocks guarded
by a bare `except Exception`). -/
inductive Eff (α : Type) where
  | ok (a : α)
  | exn

/-- Python truthiness (`if v:`). -/
def pyTruthy : PyVal → Bool
  | .none => false
  | .bool b => b
  | .int i => i != 0
  | .str s => s ≠ ""
  | .list xs => !xs.isEmpty
  | .dict es => !es.isEmpty

/-- Python `v == lit` for a string literal `lit`: equal only when `v` is
the same string (values of other types never equal a string). -/
def pyEqStr (v : PyVal) (lit : String) : Bool :=
  match v with
  | .str t => t = lit
  | _ => false

/-- Lookup in a dict's entry list with a default.  Python dict keys are
unique; duplicate keys cannot arise from parsed JSON (the parser
collapses them), and lookup takes the first match. -/
def dictGetD (es : List (String × PyVal)) (k : String) (d : PyVal) : PyVal :=
  match es.find? (fun p => p.1 = k) with
  | some p => p.2
  | Option.none => d

/-- Python `v.get(k, d)`.  On a non-dict the attribute access raises
AttributeError. -/
def pyGetD (v : PyVal) (k : String) (d : PyVal) : Except PyExc PyVal :=
  match v with
  | .dict es => .ok (dictGetD es k d)
  | _ => .error .attributeError

/-- Python `v.get(k)` (default None). -/
def pyGet (v : PyVal) (k : String) : Except PyExc PyVal :=
  pyGetD v k .none

/-- Python `for x in v`: lists yield their elements, strings their
characters (as one-character strings), dicts their keys; anything else
raises TypeError. -/
def pyIterate : PyVal → Except PyExc (List PyVal)
  | .list xs => .ok xs
  | .str s => .ok (s.data.map (fun c => .str (String.mk [c])))
  | .dict es => .ok (es.map (fun p => .str p.1))
  | _ => .error .typeError

/-- Python `len(v)`; raises TypeError on unsized values. -/
def pyLen : PyVal → Except PyExc Nat
  | .list xs => .ok xs.length
  | .str s => .ok s.length
  | .dict es => .ok es.length
  | _ => .error .typeError

/-- Insert-or-replace into an association list, keeping the position of
an existing key (Python dict assignment semantics). -/
def upsertAssoc {α : Type} : List (String × α) → String → α → List (String × α)
  | [], k, v => [(k, v)]
  | (k', v') :: rest, k, v =>
    if k' = k then (k, v) :: rest else (k', v') :: upsertAssoc rest k v

/-- Build a Python dict from a pair list: later bindings of the same key
overwrite earlier ones, first occurrence keeps its position. -/
def collapseAssoc {α : Type} (ps : List (String × α)) : List (String × α) :=
  ps.foldl (fun d p => upsertAssoc d p.1 p.2) []

/-- Strip every leading 'v' from a version string (Python
`version.lstrip("v")`). -/
def stripLeadingV (s : String) : String :=
  String.mk (s.data.dropWhile (fun c => c = 'v'))

/-- Whether a character is a decimal digit. -/
def isDigitCh (c : Char) : Bool := c ≤ '9' && '0' ≤ c

/-- Numeric value of a digit run, most significant first. -/
def digitsVal (ds : List Char) : Nat :=
  ds.foldl (fun a d => 10 * a + (d.toNat - '0'.toNat)) 0

/-- Split a character list on '.' (Python `s.split(".")`: the empty
input yields one empty group). -/
def splitDots : List Char → List (List Char)
  | [] => [[]]
  | c :: rest =>
    let r := splitDots rest
    if c = '.' then [] :: r
    else
      match r with
      | g :: gs => (c :: g) :: gs
      | [] => [[c]]

/-- Parse one dotted-release version component: nonempty, all digits. -/
def parseVersionComp (g : List Char) : Option Nat :=
  if g ≠ [] ∧ g.all isDigitCh then some (digitsVal g) else Option.none

/-- Parse a release version such as "1.2.3" into its numeric components.
This models the release segment of `packaging.version.Version`; strings
it rejects stand for `InvalidVersion`. -/
def parseVersion (s : String) : Option (List Nat) :=
  if s = "" then Option.none
  else (splitDots s.data).mapM parseVersionComp

/-- Strict version order on release components, with implicit zero
padding ("1.0" equals "1.0.0", as in PEP 440). -/
def versionLt : List Nat → List Nat → Bool
  | [], [] => false
  | [], b :: bs => (0 < b) || versionLt [] bs
  | _ :: _, [] => false
  | a :: as_, b :: bs => a < b || (a = b && versionLt as_ bs)

/-- Non-strict version order: not strictly greater. -/
def versionLe (a b : List Nat) : Bool := !(versionLt b a)

/-- Whether an optional string is Python-truthy (present and nonempty). -/
def truthyOpt : Option String → Bool
  | Option.none => false
  | some s => s ≠ ""

/-! ## JSON codec (model of Python `json.loads` / `json.dumps`)

The parser is a fueled recursive-descent parser producing `PyVal`; it
covers objects, arrays, strings with the common escapes, integers,
booleans and null.  Duplicate object keys collapse Python-style (first
position, last value).  The printer mirrors
`json.dumps(v, indent=2, ensure_ascii=False)`: two-space indentation,
", " item separator rendered as ",\n" plus indent, ": " key separator.
Control characters other than newline/tab/return are carried raw by
both directions, and numeric payloads are integers; payloads outside
this fragment simply fail to parse in the model. -/

/-- JSON whitespace. -/
def isWsCh (c : Char) : Bool := c == '\n' || c == ' ' || c == '\t' || c == '\r'

/-- Drop leading whitespace. -/
def dropWs : List Char → List Char
  | c :: cs => if isWsCh c then dropWs cs else c :: cs
  | [] => []

/-- Split a leading digit run from the input. -/
def grabDigits : List Char → List Char × List Char
  | c :: cs =>
    if isDigitCh c then
      let (ds, r) := grabDigits cs
      (c :: ds, r)
    else ([], c :: cs)
  | [] => ([], [])

/-- Read a JSON integer (optional minus sign, then digits). -/
def readInt (cs : List Char) : Option (Int × List Char) :=
  match cs with
  | '-' :: cs1 =>
    let (ds, r) := grabDigits cs1
    if ds.isEmpty then Option.none else some (-(digitsVal ds : Int), r)
  | _ =>
    let (ds, r) := grabDigits cs
    if ds.isEmpty then Option.none else some ((digitsVal ds : Int), r)

/-- Resolve a string escape character. -/
def unescapeCh : Char → Option Char
  | 'n' => some '\n'
  | 't' => some '\t'
  | 'r' => some '\r'
  | 'b' => some (Char.ofNat 8)
  | 'f' => some (Char.ofNat 12)
  | '"' => some '"'
  | '\\' => some '\\'
  | '/' => some '/'
  | _ => Option.none

/-- Parse a string body after the opening quote (structural on input). -/
def strBody (acc : List Char) : List Char → Option (String × List Char)
  | '"' :: rest => some (String.mk acc.reverse, rest)
  | '\\' :: e :: rest =>
    match unescapeCh e with
    | some c => strBody (c :: acc) rest
    | Option.none => Option.none
  | c :: rest => strBody (c :: acc) rest
  | [] => Option.none

mutual
def jsonVal (fuel : Nat) (cs : List Char) : Option (PyVal × List Char) :=
  match fuel with
  | 0 => Option.none
  | fuel + 1 =>
    match dropWs cs with
    | 'n' :: 'u' :: 'l' :: 'l' :: r => some (.none, r)
    | 't' :: 'r' :: 'u' :: 'e' :: r => some (.bool true, r)
    | 'f' :: 'a' :: 'l' :: 's' :: 'e' :: r => some (.bool false, r)
    | '"' :: r => (strBody [] r).map (fun p => (.str p.1, p.2))
    | '[' :: r =>
      (match dropWs r with
       | ']' :: r2 => some (.list [], r2)
       | r2 => (jsonItems fuel r2).map (fun p => (.list p.1, p.2)))
    | '{' :: r =>
      (match dropWs r with
       | '}' :: r2 => some (.dict [], r2)
       | r2 => (jsonEntries fuel r2).map (fun p => (.dict (collapseAssoc p.1), p.2)))
    | c :: r =>
      if c = '-' || isDigitCh c then (readInt (c :: r)).map (fun p => (.int p.1, p.2))
      else Option.none
    | [] => Option.none
def jsonItems (fuel : Nat) (cs : List Char) : Option (List PyVal × List Char) :=
  match fuel with
  | 0 => Option.none
  | fuel + 1 =>
    match jsonVal fuel cs with
    | some (v, r) =>
      (match dropWs r with
       | ',' :: r2 => (jsonItems fuel (dropWs r2)).map (fun p => (v :: p.1, p.2))
       | ']' :: r2 => some ([v], r2)
       | _ => Option.none)
    | Option.none => Option.none
def jsonEntries (fuel : Nat) (cs : List Char) :
    Option (List (String × PyVal) × List Char) :=
  match fuel with
  | 0 => Option.none
  | fuel + 1 =>
    match dropWs cs with
    | '"' :: r =>
      (match strBody [] r with
       | some (k, r1) =>
         (match dropWs r1 with
          | ':' :: r2 =>
            (match jsonVal fuel (dropWs r2) with
             | some (v, r3) =>
               (match dropWs r3 with
                | ',' :: r4 => (jsonEntries fuel (dropWs r4)).map (fun p => ((k, v) :: p.1, p.2))
                | '}' :: r4 => some ([(k, v)], r4)
                | _ => Option.none)
             | Option.none => Option.none)
          | _ => Option.none)
       | Option.none => Option.none)
    | _ => Option.none
end

/-- Python `json.loads` on a string: parse a complete document, with
nothing but whitespace allowed after the value. -/
def pyJsonLoads (s : String) : Option PyVal :=
  match jsonVal (2 * (s.data.length + 1)) s.data with
  | some (v, r) => if dropWs r = [] then some v else Option.none
  | Option.none => Option.none

/-- Spaces for one indentation level. -/
def padSp (n : Nat) : List Char := List.replicate n ' '

/-- A backslash escape pair. -/
def esc2 (c : Char) : List Char := ['\\', c]

/-- Escape one character as `json.dumps` does for the modelled escapes. -/
def escCh : Char → List Char
  | '\\' => esc2 '\\'
  | '"' => esc2 '"'
  | '\n' => esc2 'n'
  | '\r' => esc2 'r'
  | '\t' => esc2 't'
  | c => [c]

/-- Render a string literal with quotes and escapes. -/
def strChars (s : String) : List Char := '"' :: (s.data.map escCh).flatten ++ ['"']

/-- Decimal digits of a natural number (fuel-structural so that the
kernel can evaluate it; `fuel > n` suffices). -/
def natChars : Nat → Nat → List Char
  | 0, _ => []
  | fuel + 1, n =>
    if n < 10 then [Char.ofNat ('0'.toNat + n)]
    else natChars fuel (n / 10) ++ [Char.ofNat ('0'.toNat + n % 10)]

/-- Decimal rendering of an integer. -/
def intChars (i : Int) : List Char :=
  if i < 0 then '-' :: natChars (i.natAbs + 1) i.natAbs
  else natChars (i.natAbs + 1) i.natAbs

mutual
def dumpChars (ind : Nat) : PyVal → List Char
  | .bool b => if b then ['t', 'r', 'u', 'e'] else ['f', 'a', 'l', 's', 'e']
  | .none => ['n', 'u', 'l', 'l']
  | .int i => intChars i
  | .str s => strChars s
  | .list xs =>
    if xs.isEmpty then ['[', ']']
    else '[' :: '\n' :: (dumpItemsChars (ind + 2) xs ++ '\n' :: (padSp ind ++ [']']))
  | .dict es =>
    if es.isEmpty then ['{', '}']
    else '{' :: '\n' :: (dumpEntriesChars (ind + 2) es ++ '\n' :: (padSp ind ++ ['}']))
def dumpItemsChars (ind : Nat) : List PyVal → List Char
  | [] => []
  | x :: xs =>
    padSp ind ++ dumpChars ind x ++
      (if xs.isEmpty then [] else [',', '\n']) ++ dumpItemsChars ind xs
def dumpEntriesChars (ind : Nat) : List (String × PyVal) → List Char
  | [] => []
  | (k, v) :: es =>
    padSp ind ++ strChars k ++ ':' :: ' ' :: dumpChars ind v ++
      (if es.isEmpty then [] else [',', '\n']) ++ dumpEntriesChars ind es
end

/-- Python `json.dumps(v, indent=2, ensure_ascii=False)`. -/
def pyJsonDumps (v : PyVal) : String := String.mk (dumpChars 0 v)

/-- Python `json.loads` applied to an arbitrary value: non-strings raise
TypeError, unparseable strings raise JSONDecodeError. -/
def pyJsonLoadsVal (v : PyVal) : Except PyExc PyVal :=
  match v with
  | .str s =>
    match pyJsonLoads s with
    | some j => .ok j
    | Option.none => .error .jsonDecodeError
  | _ => .error .typeError

/-! ## Backup payload normalization (`backup_service._clean_backup_data`) -/

/-- One pass of Python `str.replace`: scan left to right, replacing
non-overlapping occurrences of `pat` and continuing after the
replacement (fuel-structural; `fuel > length s` suffices). -/
def replaceAux (fuel : Nat) (pat rep : List Char) : List Char → List Char :=
  match fuel with
  | 0 => fun s => s
  | fuel + 1 => fun s =>
    match s with
    | [] => []
    | c :: rest =>
      if pat.isPrefixOf (c :: rest) then
        rep ++ replaceAux fuel pat rep ((c :: rest).drop pat.length)
      else c :: replaceAux fuel pat rep rest

/-- Python `s.replace(pat, rep)` for a nonempty pattern. -/
def pyReplace (s pat rep : String) : String :=
  if pat.data.isEmpty then s
  else String.mk (replaceAux (s.data.length + 1) pat.data rep.data s.data)

/-- The manual escape-sequence cleanup of `_clean_backup_data` (lines
266-268): replace literal backslash-n, backslash-quote and double
backslash, in that order. -/
def cleanEscapes (raw : String) : String :=
  pyReplace (pyReplace (pyReplace raw "\\n" "\n") "\\\"" "\"") "\\\\" "\\"

/-- Model of `_clean_backup_data` (backup_service.py lines 248-275):
parse as JSON and reserialize with indent 2; on parse failure, unescape
and retry; if both attempts fail, return the raw string unchanged. -/
def cleanBackupData (raw : String) : String :=
  match pyJsonLoads raw with
  | some v => pyJsonDumps v
  | Option.none =>
    match pyJsonLoads (cleanEscapes raw) with
    | some v => pyJsonDumps v
    | Option.none => raw

/-! ## Field extraction

Models of `_extract_first_choice_id` and `_extract_backup_data`
(backup_service.py lines 73-123) and `extract_migration_mappings`
(migration_service.py lines 24-103).  Each body is the code inside the
`try:`, and the wrapper applies the function's `except` clause: the
caught exception classes map to the fallback result, anything else
(notably AttributeError) propagates. -/

/-- Run a `try:` body under an `except (classes): return fallback`
clause. -/
def pyCatch {α : Type} (body : Except PyExc α) (caught : List PyExc) (fallback : α) :
    Except PyExc α :=
  match body with
  | .ok a => .ok a
  | .error e => if e ∈ caught then .ok fallback else .error e

/-- The `for setting in settings:` loop of `_extract_first_choice_id`:
return the dropdown value of the first setting whose id is "choice". -/
def firstChoiceLoop : List PyVal → Except PyExc PyVal
  | [] => .ok .none
  | setting :: rest => do
    let idv ← pyGet setting "id"
    if pyEqStr idv "choice" then
      let field ← pyGetD setting "field" (.dict [])
      let dropdown ← pyGetD field "dropdown" (.dict [])
      pyGet dropdown "value"
    else firstChoiceLoop rest

/-- The common prefix of all three extractors: descend
`require_user_action` / `input` / `settings` with empty-container
defaults, then iterate. -/
def settingsOf (setup_response : PyVal) : Except PyExc (List PyVal) := do
  let rua ← pyGetD setup_response "require_user_action" (.dict [])
  let inp ← pyGetD rua "input" (.dict [])
  let settings ← pyGetD inp "settings" (.list [])
  pyIterate settings

/-- Model of `_extract_first_choice_id` (backup_service.py lines 73-96).
The `except` clause catches KeyError, TypeError and IndexError. -/
def extractFirstChoiceId (setup_response : PyVal) : Except PyExc PyVal :=
  pyCatch
    (do firstChoiceLoop (← settingsOf setup_response))
    [.keyError, .typeError, .indexError] .none

/-- The `for setting in settings:` loop of `_extract_backup_data`. -/
def backupDataLoop : List PyVal → Except PyExc PyVal
  | [] => .ok .none
  | setting :: rest => do
    let idv ← pyGet setting "id"
    if pyEqStr idv "backup_data" then
      let field ← pyGetD setting "field" (.dict [])
      let textarea ← pyGetD field "textarea" (.dict [])
      pyGet textarea "value"
    else backupDataLoop rest

/-- Model of `_extract_backup_data` (backup_service.py lines 99-123).
The `except` clause catches KeyError and TypeError. -/
def extractBackupData (setup_response : PyVal) : Except PyExc PyVal :=
  pyCatch
    (do backupDataLoop (← settingsOf setup_response))
    [.keyError, .typeError] .none

/-- The `for setting in settings:` loop of `extract_migration_mappings`:
on the first "migration_data" setting with a truthy textarea value that
parses to a dict with a list-valued "entity_mappings", return that
list; otherwise keep scanning (parse errors are caught by the inner
`except json.JSONDecodeError`). -/
def migrationLoop : List PyVal → Except PyExc (List PyVal)
  | [] => .ok []
  | setting :: rest => do
    let idv ← pyGet setting "id"
    if pyEqStr idv "migration_data" then do
      let field ← pyGetD setting "field" (.dict [])
      let textarea ← pyGetD field "textarea" (.dict [])
      let tv ← pyGetD textarea "value" (.str "")
      if pyTruthy tv then
        match pyJsonLoadsVal tv with
        | .ok md => do
          let em ← pyGetD md "entity_mappings" (.list [])
          match em with
          | .list ms => pure ms
          | _ => migrationLoop rest
        | .error .jsonDecodeError => migrationLoop rest
        | .error e => .error e
      else migrationLoop rest
    else migrationLoop rest

/-- Model of `extract_migration_mappings` (migration_service.py lines
24-103).  `len(settings)` is evaluated for the debug log before the
loop, so unsized `settings` values raise TypeError there; the outer
`except` clause catches KeyError and TypeError. -/
def extractMigrationMappings (setup_response : PyVal) : Except PyExc (List PyVal) :=
  pyCatch
    (do
      let rua ← pyGetD setup_response "require_user_action" (.dict [])
      let inp ← pyGetD rua "input" (.dict [])
      let settings ← pyGetD inp "settings" (.list [])
      let _ ← pyLen settings
      migrationLoop (← pyIterate settings))
    [.keyError, .typeError] []

/-! ## The backup sub-flow (`backup_service.backup_integration`)

The remote client's behavior during one run is an input of the model: a
`BackupScript` fixes, for each client call in source order, whether it
raises SyncAPIError or returns a response (where a returned `Option` is
Python truthiness: `Option.none` stands for a falsy response, None or an
empty dict).  The model records the returned value (or the escaping
exception) together with how many times `complete_setup` was invoked.
`time.sleep` pacing and the `save_to_file` persistence (whose result the
source ignores, logging aside) have no effect on either and are not
modelled.  The exception handler's own `complete_setup` failure is
swallowed by the source (lines 240-244), so only the outcome of the
first `complete_setup` invocation is observable. -/

/-- Client behavior for one `backup_integration` run, in call order:
`start_setup`, first `get_setup`, `send_setup_input`, second
`get_setup`, and whether the first `complete_setup` invocation raises
SyncAPIError. -/
structure BackupScript where
  startResp : Eff (Option PyVal)
  getResp1 : Eff (Option PyVal)
  sendResp : Eff (Option PyVal)
  getResp2 : Eff (Option PyVal)
  completeRaises : Bool

/-- Observable outcome of a `backup_integration` run: the value it
returns (or the exception that escapes it), and the number of
`complete_setup` invocations made on the client. -/
structure BackupOutcome where
  result : Except PyExc PyVal
  completes : Nat

/-- A `complete_setup` call made inside the `try:` block, followed by
`return None`: if it raises SyncAPIError, the handler at line 238 runs
and calls `complete_setup` once more (its own failure swallowed). -/
def cleanupThenNone (s : BackupScript) : BackupOutcome :=
  if s.completeRaises then ⟨.ok .none, 2⟩ else ⟨.ok .none, 1⟩

/-- Model of `backup_integration` (backup_service.py lines 126-245),
faithful to the source's exit paths:
start setup, read the page, extract the first choice id (no choice or a
falsy choice means the driver does not support backup), send the backup
action, read again, extract `backup_data`, then complete the setup
flow.  SyncAPIError from any client call lands in the handler at line
238 (one best-effort `complete_setup`, return None); an exception from
either extractor is not caught and escapes. -/
def backupIntegration (s : BackupScript) : BackupOutcome :=
  match s.startResp with
  | .exn => ⟨.ok .none, 1⟩
  | .ok Option.none => ⟨.ok .none, 0⟩
  | .ok (some _) =>
    match s.getResp1 with
    | .exn => ⟨.ok .none, 1⟩
    | .ok Option.none => ⟨.ok .none, 0⟩
    | .ok (some r1) =>
      match extractFirstChoiceId r1 with
      | .error e => ⟨.error e, 0⟩
      | .ok choice =>
        if !pyTruthy choice then cleanupThenNone s
        else
          match s.sendResp with
          | .exn => ⟨.ok .none, 1⟩
          | .ok Option.none => cleanupThenNone s
          | .ok (some _) =>
            match s.getResp2 with
            | .exn => ⟨.ok .none, 1⟩
            | .ok Option.none => cleanupThenNone s
            | .ok (some r2) =>
              match extractBackupData r2 with
              | .error e => ⟨.error e, 0⟩
              | .ok bd =>
                if !pyTruthy bd then cleanupThenNone s
                else if s.completeRaises then ⟨.ok .none, 2⟩
                else ⟨.ok bd, 1⟩

/-! ## The update pipeline (`web_server._perform_update_integration`)

The pipeline's remote-side effects are inputs of the model (an
`UpdateEnv` fixes the outcome of each call), and a run records the
terminal HTTP-level result, the ordered trace of attempted remote
actions, and the final state of the operation flag.  The restore
block's steps after the migration-detection scan (lines 1448-1890:
sending the restore payload, verification reads, the migration
execution sub-flow, and entity re-registration) are abstracted into a
single `restoreTail` outcome: the source swallows every exception
raised there inside the restore block's own handlers (lines 1862-1890,
one or two best-effort `complete_setup` calls) and continues to the
success return, and none of those steps deletes or installs a driver
or touches the operation flag. -/

/-- The fields of an installed integration consumed by the update path. -/
structure Integration where
  instance_id : String
  driver_id : String
  version : String
  home_page : String
  official : Bool
  supports_backup : Bool

/-- A registry entry: `id` is matched by the install path, `driver_id`
by the update path; a `.get` on a missing key yields None (`Option`). -/
structure RegistryEntry where
  id : String
  driver_id : String
  repository : String
  migration_required_at : Option String
  backup_min_version : Option String

/-- Remote-side actions attempted during a run.  `migrationDetect`
marks entry into the migration-metadata scan of the restore block
(web_server.py lines 1376-1440); `restoreTail` stands for the
abstracted steps after that scan. -/
inductive RAct where
  | getConfiguredEntities
  | backup
  | download
  | deleteDriver
  | installDriver
  | getDrivers
  | getDriver
  | restoreStart
  | restoreRead
  | migrationDetect
  | restoreTail
  | completeSetup
deriving DecidableEq

/-- Outcome of the `delete_driver` call (lines 1249-1280): success, a
SyncAPIError whose text looks like a connection problem (fatal), any
other SyncAPIError (tolerated), or a non-SyncAPIError exception
(escapes to the function-level handler). -/
inductive DeleteOutcome where
  | ok
  | syncConn
  | syncOther
  | exn
deriving DecidableEq

/-- Terminal results of `_perform_update_integration`.  `internalError`
covers both function-level handlers (SyncAPIError and Exception, lines
1947-1988): each returns HTTP 500 after releasing the lock. -/
inductive UpdateResult where
  | notInitialized
  | busy
  | notFound
  | officialRejected
  | noGithub
  | boundaryRejected
  | invalidVersion
  | backupFailed
  | parseUrlFailed
  | noRelease
  | deleteConnFailed
  | internalError
  | updated
deriving DecidableEq

/-- Observable outcome of one `_perform_update_integration` run. -/
structure UpdateRun where
  result : UpdateResult
  trace : List RAct
  lockHeld : Bool

/-- Environment of one update run: request parameters, remote and
registry state, and the outcome of each remote call in source order.
`registryLoadOk` covers both `load_registry()` calls (lines 1029 and
1115; each is wrapped in a `try` whose failure leaves the looked-up
field None). -/
structure UpdateEnv where
  clientsInit : Bool
  inProgress : Bool
  instanceId : String
  registerEntities : Bool
  version : Option String
  integrations : List Integration
  registryLoadOk : Bool
  registry : List RegistryEntry
  captureOutcome : Eff (List String)
  backupOutcome : Eff PyVal
  parseUrlOk : Bool
  downloadOutcome : Eff Bool
  deleteOutcome : DeleteOutcome
  installOutcome : Eff Unit
  getDriversOutcome : Eff Unit
  getDriverOutcome : Eff (Option String)
  restoreStartOutcome : Eff Unit
  restoreGet1 : Eff PyVal
  restoreGet2 : Eff PyVal
  restoreTailOutcome : Eff Unit

/-- Whether `needle` occurs as a contiguous run inside `hay`. -/
def containsSub (hay needle : List Char) : Bool :=
  match hay with
  | [] => needle.isEmpty
  | _ :: rest => needle.isPrefixOf hay || containsSub rest needle

/-- Whether a URL mentions github.com (Python `"github.com" in url`). -/
def containsGithub (s : String) : Bool :=
  containsSub s.data "github.com".data

/-- One setting of the migration-metadata scan (lines 1396-1419):
read its id; for "migration_required" also read the label value. -/
def detectScanSetting (setting : PyVal) : Except PyExc Unit := do
  let idv ← pyGet setting "id"
  if pyEqStr idv "migration_possible" then pure ()
  else if pyEqStr idv "migration_required" then do
    let field ← pyGetD setting "field" (.dict [])
    let label ← pyGetD field "label" (.dict [])
    let _ ← pyGetD label "value" (.str "")
    pure ()
  else pure ()

/-- The migration-metadata scan of the restore block (lines 1383-1419):
descend to the settings, log their count and ids, then inspect each
setting.  Only its raising behavior is observable in the model (its
flags feed the abstracted tail). -/
def migrationDetectScan (resp : PyVal) : Except PyExc Unit := do
  let rua ← pyGetD resp "require_user_action" (.dict [])
  let inp ← pyGetD rua "input" (.dict [])
  let settings ← pyGetD inp "settings" (.list [])
  let _ ← pyLen settings
  let items ← pyIterate settings
  let _ ← items.mapM (fun s => pyGet s "id")
  let _ ← items.mapM detectScanSetting
  pure ()

/-- Steps of the restore block after the migration-detection scan,
abstracted (see the section comment): an exception lands in the restore
block's own handler (best-effort cleanup, then the run still succeeds). -/
def updTail (e : UpdateEnv) (t : List RAct) : UpdateRun :=
  match e.restoreTailOutcome with
  | .exn => ⟨.updated, t ++ [.restoreTail, .completeSetup], false⟩
  | .ok _ => ⟨.updated, t ++ [.restoreTail], false⟩

/-- The migration-detection decision inside the restore block (line
1376): the scan runs only when a previous version exists and the
registry boundary said to check. -/
def updDetect (e : UpdateEnv) (integ : Integration) (resp : PyVal) (t : List RAct)
    (shouldCheck : Bool) : UpdateRun :=
  if integ.version != "" && shouldCheck then
    match migrationDetectScan resp with
    | .error _ => ⟨.updated, t ++ [.migrationDetect, .completeSetup], false⟩
    | .ok _ => updTail e (t ++ [.migrationDetect])
  else updTail e t

/-- The restore block (lines 1340-1890): runs only when a backup was
taken and the target is a configured instance; starts a setup session,
reads it (retrying once when the state is not WAIT_USER_ACTION), then
decides on migration detection.  Any exception inside the block is
swallowed by its handlers (cleanup, then proceed to the success
return). -/
def updRestore (e : UpdateEnv) (integ : Integration) (backupData : Option PyVal)
    (t : List RAct) (shouldCheck : Bool) (isConfigured : Bool) : UpdateRun :=
  match backupData with
  | Option.none => ⟨.updated, t, false⟩
  | some _ =>
    if !isConfigured then ⟨.updated, t, false⟩
    else
      match e.restoreStartOutcome with
      | .exn => ⟨.updated, t ++ [.restoreStart, .completeSetup], false⟩
      | .ok _ =>
        match e.restoreGet1 with
        | .exn => ⟨.updated, t ++ [.restoreStart, .restoreRead, .completeSetup], false⟩
        | .ok r1 =>
          match pyGetD r1 "state" (.str "") with
          | .error _ => ⟨.updated, t ++ [.restoreStart, .restoreRead, .completeSetup], false⟩
          | .ok st1 =>
            if !pyEqStr st1 "WAIT_USER_ACTION" then
              match e.restoreGet2 with
              | .exn =>
                ⟨.updated, t ++ [.restoreStart, .restoreRead, .restoreRead, .completeSetup], false⟩
              | .ok r2 =>
                match pyGetD r2 "state" (.str "") with
                | .error _ =>
                  ⟨.updated, t ++ [.restoreStart, .restoreRead, .restoreRead, .completeSetup], false⟩
                | .ok _ =>
                  updDetect e integ r2 (t ++ [.restoreStart, .restoreRead, .restoreRead]) shouldCheck
            else updDetect e integ r1 (t ++ [.restoreStart, .restoreRead]) shouldCheck

/-- Lines 1296-1338: after installation, fetch the driver info when a
previous version exists, and decide `should_check_migration` from the
registry boundary (an unparseable version pair means "check anyway"). -/
def updMigrationCheck (e : UpdateEnv) (integ : Integration) (mra : Option String)
    (backupData : Option PyVal) (t : List RAct) (isConfigured : Bool) : UpdateRun :=
  if integ.version != "" then
    match e.getDriverOutcome with
    | .exn => ⟨.internalError, t ++ [.getDriver], false⟩
    | .ok _ =>
      let shouldCheck : Bool :=
        if truthyOpt mra then
          match parseVersion integ.version, parseVersion (mra.getD "") with
          | some p, some b => versionLt p b
          | _, _ => true
        else false
      updRestore e integ backupData (t ++ [.getDriver]) shouldCheck isConfigured
  else updRestore e integ backupData t false isConfigured

/-- Lines 1203-1294: parse the GitHub URL, download the release asset,
delete the old driver (connection-like SyncAPIError fatal, other
SyncAPIError tolerated), install the new version, and run the
post-install verification read. -/
def updAfterBackup (e : UpdateEnv) (integ : Integration) (mra : Option String)
    (backupData : Option PyVal) (t : List RAct) (isConfigured : Bool) : UpdateRun :=
  if !e.parseUrlOk then ⟨.parseUrlFailed, t, false⟩
  else
    match e.downloadOutcome with
    | .exn => ⟨.internalError, t ++ [.download], false⟩
    | .ok false => ⟨.noRelease, t ++ [.download], false⟩
    | .ok true =>
      match e.deleteOutcome with
      | .syncConn => ⟨.deleteConnFailed, t ++ [.download, .deleteDriver], false⟩
      | .exn => ⟨.internalError, t ++ [.download, .deleteDriver], false⟩
      | _ =>
        match e.installOutcome with
        | .exn => ⟨.internalError, t ++ [.download, .deleteDriver, .installDriver], false⟩
        | .ok _ =>
          match e.getDriversOutcome with
          | .exn =>
            ⟨.internalError, t ++ [.download, .deleteDriver, .installDriver, .getDrivers], false⟩
          | .ok _ =>
            updMigrationCheck e integ mra backupData
              (t ++ [.download, .deleteDriver, .installDriver, .getDrivers]) isConfigured

/-- The registry's `migration_required_at` for this driver (lines
1026-1040; a registry load failure leaves it None). -/
def updBoundary (e : UpdateEnv) (integ : Integration) : Option String :=
  if e.registryLoadOk then
    match e.registry.find? (fun en => en.driver_id == integ.driver_id) with
    | some en => en.migration_required_at
    | Option.none => Option.none
  else Option.none

/-- Line 1018: the update targets a configured instance. -/
def updIsConfigured (e : UpdateEnv) (integ : Integration) : Bool :=
  (e.instanceId != "") && (integ.instance_id != "")

/-- The trace of the entity-capture step (lines 1077-1102). -/
def updCaptureT (e : UpdateEnv) (integ : Integration) : List RAct :=
  if e.registerEntities && updIsConfigured e integ then [.getConfiguredEntities] else []

/-- The registry's `backup_min_version` for this driver (lines
1113-1121; a registry load failure leaves it None). -/
def updMinVersion (e : UpdateEnv) (integ : Integration) : Option String :=
  if e.registryLoadOk then
    match e.registry.find? (fun en => en.driver_id == integ.driver_id) with
    | some en => en.backup_min_version
    | Option.none => Option.none
  else Option.none

/-- Lines 1110-1134: the driver can do an automated backup when it
declares support and its installed version is not provably below the
registry minimum (an unparseable pair keeps backup enabled). -/
def updCanBackup (e : UpdateEnv) (integ : Integration) : Bool :=
  integ.supports_backup &&
    !(truthyOpt (updMinVersion e integ) && integ.version != "" &&
      (match parseVersion integ.version, parseVersion ((updMinVersion e integ).getD "") with
       | some cur, some mv => versionLt cur mv
       | _, _ => false))

/-- The backup step fails when the call raises or returns no data
(lines 1141-1186). -/
def updBackupFails (e : UpdateEnv) : Bool :=
  match e.backupOutcome with
  | .exn => true
  | .ok bd => !pyTruthy bd

/-- The data the backup step stores on success (lines 1142-1145). -/
def updBackupValue (e : UpdateEnv) : PyVal :=
  match e.backupOutcome with
  | .exn => .none
  | .ok bd => bd

/-- Lines 1069-1201: capture the configured entities when requested,
then the backup decision: a configured instance whose driver can do an
automated backup requires a successful one (a falsy result or an
exception aborts with HTTP 400); otherwise the update proceeds without
a backup. -/
def updAfterBoundary (e : UpdateEnv) (integ : Integration) (mra : Option String) :
    UpdateRun :=
  if updIsConfigured e integ && updCanBackup e integ then
    if updBackupFails e then ⟨.backupFailed, updCaptureT e integ ++ [.backup], false⟩
    else updAfterBackup e integ mra (some (updBackupValue e))
      (updCaptureT e integ ++ [.backup]) (updIsConfigured e integ)
  else updAfterBackup e integ mra Option.none (updCaptureT e integ) (updIsConfigured e integ)

/-- Lines 993-1067 and onward, for the found integration:
official/GitHub validation, then the migration-boundary validation of
an explicitly requested version (reject with HTTP 400 when the cleaned
version is less than or equal to the boundary, or when either side
fails to parse). -/
def updFound (e : UpdateEnv) (integ : Integration) : UpdateRun :=
  if integ.official then ⟨.officialRejected, [], false⟩
  else if integ.home_page == "" || !containsGithub integ.home_page then
    ⟨.noGithub, [], false⟩
  else if truthyOpt e.version && truthyOpt (updBoundary e integ) then
    match parseVersion (stripLeadingV (e.version.getD "")),
          parseVersion ((updBoundary e integ).getD "") with
    | some cv, some bv =>
      if versionLe cv bv then ⟨.boundaryRejected, [], false⟩
      else updAfterBoundary e integ (updBoundary e integ)
    | _, _ => ⟨.invalidVersion, [], false⟩
  else updAfterBoundary e integ (updBoundary e integ)

/-- Model of `_perform_update_integration` (web_server.py lines
935-1988): initialization check, lock acquisition (HTTP 409 when
held), instance lookup, then `updFound`. -/
def performUpdateIntegration (e : UpdateEnv) : UpdateRun :=
  if !e.clientsInit then ⟨.notInitialized, [], e.inProgress⟩
  else if e.inProgress then ⟨.busy, [], true⟩
  else
    match e.integrations.find? (fun i => i.instance_id == e.instanceId) with
    | Option.none => ⟨.notFound, [], false⟩
    | some integ => updFound e integ

/-! ## The install entry point (`web_server.install_integration`) -/

/-- Terminal results of `install_integration` (lines 2545-2745).
`errorCard` covers the two function-level handlers (each returns an
error card after releasing the lock). -/
inductive InstResult where
  | notInitialized
  | busy
  | notFoundInRegistry
  | boundaryRejected
  | invalidVersion
  | noGithub
  | parseUrlFailed
  | noRelease
  | installed
  | errorCard
deriving DecidableEq

/-- Observable outcome of one `install_integration` run. -/
structure InstallRun where
  result : InstResult
  trace : List RAct
  lockHeld : Bool

/-- Environment of one install run. -/
structure InstallEnv where
  clientsInit : Bool
  inProgress : Bool
  driverId : String
  version : Option String
  registryLoadOk : Bool
  registry : List RegistryEntry
  parseUrlOk : Bool
  downloadOutcome : Eff Bool
  installOutcome : Eff Unit

/-- Lines 2627-2718: repository checks, download, install. -/
def instAfterBoundary (e : InstallEnv) : InstallRun :=
  match e.registry.find? (fun it => it.id == e.driverId) with
  | Option.none => ⟨.errorCard, [], false⟩
  | some item =>
    if item.repository == "" || !containsGithub item.repository then
      ⟨.noGithub, [], false⟩
    else if !e.parseUrlOk then ⟨.parseUrlFailed, [], false⟩
    else
      match e.downloadOutcome with
      | .exn => ⟨.errorCard, [.download], false⟩
      | .ok false => ⟨.noRelease, [.download], false⟩
      | .ok true =>
        match e.installOutcome with
        | .exn => ⟨.errorCard, [.download, .installDriver], false⟩
        | .ok _ => ⟨.installed, [.download, .installDriver], false⟩

/-- Model of `install_integration` (web_server.py lines 2545-2745):
initialization check, lock acquisition (HTTP 409 when held), registry
lookup, then the migration-boundary validation of an explicitly
requested version, then repository checks, download and install.  A
`load_registry` failure escapes to the function-level handler. -/
def installIntegration (e : InstallEnv) : InstallRun :=
  if !e.clientsInit then ⟨.notInitialized, [], e.inProgress⟩
  else if e.inProgress then ⟨.busy, [], true⟩
  else if !e.registryLoadOk then ⟨.errorCard, [], false⟩
  else
    match e.registry.find? (fun it => it.id == e.driverId) with
    | Option.none => ⟨.notFoundInRegistry, [], false⟩
    | some item =>
      if truthyOpt e.version && truthyOpt item.migration_required_at then
        match parseVersion (stripLeadingV (e.version.getD "")),
              parseVersion (item.migration_required_at.getD "") with
        | some cv, some bv =>
          if versionLe cv bv then ⟨.boundaryRejected, [], false⟩
          else instAfterBoundary e
        | _, _ => ⟨.invalidVersion, [], false⟩
      else instAfterBoundary e

/-! ## The operation lock

`_operation_in_progress` (web_server.py lines 84-85) is a process-wide
boolean guarded by `_operation_lock`; each lifecycle entry point reads
and sets it atomically under that mutex.  The guard's sequential
semantics is a transition function on the boolean. -/

/-- One guarded acquisition attempt: returns the new flag state and
whether the attempt succeeded (lines 962-975, 2565-2579). -/
def tryAcquire (inProgress : Bool) : Bool × Bool :=
  if inProgress then (true, false) else (true, true)

/-- Releasing the lock clears the flag on every exit path. -/
def releaseLock (_ : Bool) : Bool := false

/-! ## Applying migration mappings (`_perform_update_integration`
lines 1724-1746) -/

/-- The dict comprehension of line 1731: a Python dict from
previous-to-new pairs (later duplicates overwrite earlier values). -/
def buildMappingDict (ms : List (String × String)) : List (String × String) :=
  collapseAssoc ms

/-- The rewrite loop of lines 1735-1746: map each configured entity id
through the mapping dict, keeping ids that are not mapped, in input
order. -/
def updateEntityIds (ids : List String) (ms : List (String × String)) : List String :=
  let d := buildMappingDict ms
  ids.foldl
    (fun acc i =>
      match List.lookup i d with
      | some n => acc ++ [n]
      | Option.none => acc ++ [i])
    []

/-! ## Specification-side helper definitions -/

mutual
/-- Keys are unique in every dict, recursively (the invariant of values
produced by the JSON parser, and the precondition of the printer
round-trip). -/
def wfKeys : PyVal → Bool
  | .list xs => wfKeysList xs
  | .dict es => decide ((es.map Prod.fst).Nodup) && wfKeysEntries es
  | _ => true
def wfKeysList : List PyVal → Bool
  | [] => true
  | x :: xs => wfKeys x && wfKeysList xs
def wfKeysEntries : List (String × PyVal) → Bool
  | [] => true
  | (_, v) :: es => wfKeys v && wfKeysEntries es
end

/-- Total `.get` through a possibly-non-dict value (None on non-dicts);
used only to state properties about settings. -/
def pvGetD (v : PyVal) (k : String) (d : PyVal) : PyVal :=
  match v with
  | .dict es => dictGetD es k d
  | _ => d

/-- The settings list a well-shaped setup response exposes to the
extraction loops (empty when any level is missing or not a list). -/
def settingsItemsOf (resp : PyVal) : List PyVal :=
  match pvGetD (pvGetD (pvGetD resp "require_user_action" (.dict []))
      "input" (.dict [])) "settings" (.list []) with
  | .list items => items
  | _ => []

/-- The `field` sub-structure of a setting holds dicts along the path
`field.{sub}` (so the extractor's `.get` chain cannot raise). -/
def subFieldDictOK (es : List (String × PyVal)) (sub : String) : Bool :=
  match dictGetD es "field" (.dict []) with
  | .dict fes =>
    (match dictGetD fes sub (.dict []) with
     | .dict _ => true
     | _ => false)
  | _ => false

/-- For a "migration_data" setting: if the textarea value is a string
that parses as JSON, the parse is a dict (the source calls `.get` on
it; anything else raises AttributeError there). -/
def migrationValueOK (es : List (String × PyVal)) : Bool :=
  match dictGetD es "field" (.dict []) with
  | .dict fes =>
    (match dictGetD fes "textarea" (.dict []) with
     | .dict tes =>
       (match dictGetD tes "value" (.str "") with
        | .str sv =>
          (match pyJsonLoads sv with
           | some (.dict _) => true
           | some _ => false
           | Option.none => true)
        | _ => true)
     | _ => true)
  | _ => true

/-- A setting is well-shaped for the extraction loops: it is a dict,
and wherever an extractor descends into `field`, the traversed values
are dicts. -/
def wellShapedSetting (s : PyVal) : Bool :=
  match s with
  | .dict es =>
    (if pyEqStr (dictGetD es "id" .none) "choice" then subFieldDictOK es "dropdown" else true) &&
    (if pyEqStr (dictGetD es "id" .none) "backup_data" then subFieldDictOK es "textarea" else true) &&
    (if pyEqStr (dictGetD es "id" .none) "migration_data" then
       subFieldDictOK es "textarea" && migrationValueOK es
     else true)
  | _ => false

/-- A setup response is well-shaped for the extraction functions: every
value traversed by a `.get` is a dict, and the settings value is either
a list of well-shaped settings or an unsized scalar (whose TypeError
the extractors catch). -/
def wellShapedResponse (resp : PyVal) : Bool :=
  match resp with
  | .dict es =>
    match dictGetD es "require_user_action" (.dict []) with
    | .dict rs =>
      match dictGetD rs "input" (.dict []) with
      | .dict is_ =>
        match dictGetD is_ "settings" (.list []) with
        | .list items => items.all wellShapedSetting
        | .int _ => true
        | .bool _ => true
        | .none => true
        | _ => false
      | _ => false
    | _ => false
  | _ => false

/-- Whether the registry boundary asks the pipeline to check for
migration, for a parsed previous version: false when the boundary is
absent or empty, otherwise the strict comparison against the parsed
boundary (None when the boundary does not parse). -/
def boundaryRequiresCheck (pv : List Nat) : Option String → Option Bool
  | Option.none => some false
  | some b =>
    if b = "" then some false
    else (parseVersion b).map (fun pb => versionLt pv pb)

/-- The input cannot extend a decimal number: empty, or headed by a
non-digit. -/
def headNotDigit : List Char → Bool
  | [] => true
  | c :: _ => !isDigitCh c

/-- Round-trip statement for values at a given parser fuel: a dump of a
well-keyed value followed by any non-digit-headed remainder parses back
to the value with exactly that remainder. -/
def RtVal (fuel : Nat) : Prop :=
  ∀ (ind : Nat) (v : PyVal) (rest : List Char), wfKeys v = true →
    (dumpChars ind v).length ≤ fuel → headNotDigit rest = true →
    jsonVal fuel (dumpChars ind v ++ rest) = some (v, rest)

/-- Round-trip statement for dumped non-empty item lists followed by a
newline, whitespace and the closing bracket. -/
def RtItems (fuel : Nat) : Prop :=
  ∀ (ind : Nat) (xs : List PyVal) (ws rest : List Char), wfKeysList xs = true →
    xs ≠ [] → (∀ c ∈ ws, isWsCh c = true) →
    (dumpItemsChars ind xs).length + 1 ≤ fuel →
    jsonItems fuel (dumpItemsChars ind xs ++ '\n' :: (ws ++ ']' :: rest)) =
      some (xs, rest)

/-- Round-trip statement for dumped non-empty entry lists followed by a
newline, whitespace and the closing brace. -/
def RtEntries (fuel : Nat) : Prop :=
  ∀ (ind : Nat) (es : List (String × PyVal)) (ws rest : List Char),
    wfKeysEntries es = true → es ≠ [] → (∀ c ∈ ws, isWsCh c = true) →
    (dumpEntriesChars ind es).length + 1 ≤ fuel →
    jsonEntries fuel (dumpEntriesChars ind es ++ '\n' :: (ws ++ '}' :: rest)) =
      some (es, rest)

/-! ## Supporting lemmas -/

theorem updateEntityIds_foldl (ids : List String) (d : List (String × String))
    (acc : List String) :
    ids.foldl
      (fun acc i =>
        match List.lookup i d with
        | some n => acc ++ [n]
        | Option.none => acc ++ [i]) acc
      = acc ++ ids.map (fun i => (List.lookup i d).getD i) := by
  induction ids generalizing acc with
  | nil => simp
  | cons x xs ih =>
    cases h : List.lookup x d <;> simp [List.foldl_cons, h, ih]

theorem upsertAssoc_append {α : Type} (l : List (String × α)) (k : String) (v : α)
    (h : k ∉ l.map Prod.fst) : upsertAssoc l k v = l ++ [(k, v)] := by
  induction l with
  | nil => rfl
  | cons p rest ih =>
    simp only [List.map_cons, List.mem_cons] at h
    push_neg at h
    rw [upsertAssoc, if_neg (fun hk => h.1 hk.symm), ih h.2]
    simp

theorem collapseAssoc_self_aux {α : Type} (ms : List (String × α)) :
    ∀ acc : List (String × α), ((acc ++ ms).map Prod.fst).Nodup →
      ms.foldl (fun d p => upsertAssoc d p.1 p.2) acc = acc ++ ms := by
  induction ms with
  | nil => intro acc _; simp
  | cons p rest ih =>
    intro acc h
    have hsplit : ((acc ++ [p]) ++ rest).map Prod.fst = (acc ++ p :: rest).map Prod.fst := by
      simp
    have hk : p.1 ∉ acc.map Prod.fst := by
      simp only [List.map_append, List.map_cons] at h
      have := (List.nodup_append.mp h).2.2
      intro hmem
      exact this hmem (by simp)
    rw [List.foldl_cons, upsertAssoc_append _ _ _ hk, ih (acc ++ [p]) (by rw [hsplit]; exact h)]
    simp

theorem collapseAssoc_self {α : Type} (ms : List (String × α))
    (h : (ms.map Prod.fst).Nodup) : collapseAssoc ms = ms := by
  simpa using collapseAssoc_self_aux ms [] (by simpa using h)

/-! ## Claim theorems: mapping application, lock, backup sub-flow -/

/-- C3: applying a migration mapping rewrites each configured entity
identifier that occurs as a previous id to its paired new id, leaves
every other identifier unchanged, preserves length and order, and in
particular sends [A, C] through the mapping A to B to [B, C].  (With
duplicate previous ids the source's dict build keeps the last pair;
here the pairing is assumed unambiguous.) -/
theorem apply_migration_mappings_spec (ids : List String) (ms : List (String × String))
    (hnd : (ms.map Prod.fst).Nodup) :
    updateEntityIds ids ms = ids.map (fun i => (List.lookup i ms).getD i) ∧
    (updateEntityIds ids ms).length = ids.length ∧
    updateEntityIds ["A", "C"] [("A", "B")] = ["B", "C"] := by
  have hdict : buildMappingDict ms = ms := collapseAssoc_self ms hnd
  have hmap : updateEntityIds ids ms = ids.map (fun i => (List.lookup i ms).getD i) := by
    unfold updateEntityIds
    rw [hdict, updateEntityIds_foldl]
    simp
  refine ⟨hmap, ?_, rfl⟩
  rw [hmap]
  simp

/-- C3 witness: the concrete scenario from the claim. -/
theorem apply_migration_mappings_spec_witness :
    updateEntityIds ["A", "C"] [("A", "B")] = ["B", "C"] :=
  (apply_migration_mappings_spec ["A", "C"] [("A", "B")] (by decide)).2.2

/-- C1 (failing input): `backup_integration` does not end the session
on every exit path.  When `start_setup` returns a live session but the
first `get_setup` returns an empty response (backup_service.py lines
160-163), the function returns None with zero `complete_setup`
invocations, leaving the remote setup session open — unlike the
analogous empty read after the backup action (lines 202-206), which
does clean up. -/
theorem backup_leaves_session_open_on_empty_read :
    backupIntegration
      ⟨.ok (some (.dict [("state", .str "SETUP")])), .ok Option.none,
        .ok Option.none, .ok Option.none, false⟩ = ⟨.ok .none, 0⟩ := rfl

/-- C2: for a driver whose first setup read contains no "choice" field,
`backup_integration` returns None without raising, and `complete_setup`
is invoked before returning (backup_service.py lines 170-180). -/
theorem backup_unsupported_returns_empty (s : BackupScript) (r0 r1 : PyVal)
    (h0 : s.startResp = .ok (some r0)) (h1 : s.getResp1 = .ok (some r1))
    (hc : extractFirstChoiceId r1 = .ok .none) :
    (backupIntegration s).result = .ok .none ∧ 1 ≤ (backupIntegration s).completes := by
  unfold backupIntegration cleanupThenNone
  simp only [h0, h1, hc]
  simp [pyTruthy]
  split <;> simp

/-- C2 witness: a response whose settings hold no "choice" field. -/
theorem backup_unsupported_returns_empty_witness :
    (backupIntegration
      ⟨.ok (some (.dict [])),
       .ok (some (.dict [("require_user_action", .dict [("input", .dict [("settings", .list [])])])])),
       .ok Option.none, .ok Option.none, false⟩).result = .ok .none ∧
    1 ≤ (backupIntegration
      ⟨.ok (some (.dict [])),
       .ok (some (.dict [("require_user_action", .dict [("input", .dict [("settings", .list [])])])])),
       .ok Option.none, .ok Option.none, false⟩).completes :=
  backup_unsupported_returns_empty _ (.dict [])
    (.dict [("require_user_action", .dict [("input", .dict [("settings", .list [])])])])
    rfl rfl rfl

theorem updTail_shape (e : UpdateEnv) (t : List RAct) :
    ∃ s, (updTail e t).trace = t ++ s ∧
      ∀ a ∈ s, a = .restoreTail ∨ a = .completeSetup := by
  unfold updTail
  split
  · exact ⟨[.restoreTail, .completeSetup], rfl, by simp⟩
  · exact ⟨[.restoreTail], rfl, by simp⟩

theorem updDetect_shape (e : UpdateEnv) (integ : Integration) (resp : PyVal)
    (t : List RAct) (sc : Bool) :
    ∃ s, (updDetect e integ resp t sc).trace = t ++ s ∧
      ∀ a ∈ s, a = .migrationDetect ∨ a = .restoreTail ∨ a = .completeSetup := by
  unfold updDetect
  by_cases hc : (integ.version != "" && sc) = true
  · rw [if_pos hc]
    cases hscan : migrationDetectScan resp with
    | error err => exact ⟨[.migrationDetect, .completeSetup], rfl, by decide⟩
    | ok u =>
      obtain ⟨s, hs, hsub⟩ := updTail_shape e (t ++ [.migrationDetect])
      refine ⟨[.migrationDetect] ++ s, by simpa using hs, ?_⟩
      refine List.forall_mem_append.mpr ⟨by decide, ?_⟩
      intro a ha
      rcases hsub a ha with h | h <;> simp [h]
  · rw [if_neg hc]
    obtain ⟨s, hs, hsub⟩ := updTail_shape e t
    refine ⟨s, hs, ?_⟩
    intro a ha
    rcases hsub a ha with h | h <;> simp [h]

theorem updRestore_shape (e : UpdateEnv) (integ : Integration) (bd : Option PyVal)
    (t : List RAct) (sc : Bool) (cfg : Bool) :
    ∃ s, (updRestore e integ bd t sc cfg).trace = t ++ s ∧
      ∀ a ∈ s, a = .restoreStart ∨ a = .restoreRead ∨ a = .migrationDetect ∨
        a = .restoreTail ∨ a = .completeSetup := by
  have weaken : ∀ (s : List RAct),
      (∀ a ∈ s, a = .migrationDetect ∨ a = .restoreTail ∨ a = .completeSetup) →
      ∀ a ∈ s, a = .restoreStart ∨ a = .restoreRead ∨ a = .migrationDetect ∨
        a = .restoreTail ∨ a = .completeSetup := by
    intro s hsub a ha
    rcases hsub a ha with h | h | h <;> simp [h]
  cases bd with
  | none => exact ⟨[], by simp [updRestore], by decide⟩
  | some v =>
    cases cfg with
    | false => exact ⟨[], by simp [updRestore], by decide⟩
    | true =>
      cases hs0 : e.restoreStartOutcome with
      | exn => exact ⟨[.restoreStart, .completeSetup], by simp [updRestore, hs0], by decide⟩
      | ok u0 =>
        cases hs1 : e.restoreGet1 with
        | exn =>
          exact ⟨[.restoreStart, .restoreRead, .completeSetup],
            by simp [updRestore, hs0, hs1], by decide⟩
        | ok r1 =>
          cases hst1 : pyGetD r1 "state" (.str "") with
          | error err =>
            exact ⟨[.restoreStart, .restoreRead, .completeSetup],
              by simp [updRestore, hs0, hs1, hst1], by decide⟩
          | ok st1 =>
            by_cases hw : (!pyEqStr st1 "WAIT_USER_ACTION") = true
            · cases hs2 : e.restoreGet2 with
              | exn =>
                exact ⟨[.restoreStart, .restoreRead, .restoreRead, .completeSetup],
                  by simp [updRestore, hs0, hs1, hst1, hw, hs2], by decide⟩
              | ok r2 =>
                cases hst2 : pyGetD r2 "state" (.str "") with
                | error err =>
                  exact ⟨[.restoreStart, .restoreRead, .restoreRead, .completeSetup],
                    by simp [updRestore, hs0, hs1, hst1, hw, hs2, hst2], by decide⟩
                | ok st2 =>
                  obtain ⟨s, hs, hsub⟩ :=
                    updDetect_shape e integ r2 (t ++ [.restoreStart, .restoreRead, .restoreRead]) sc
                  refine ⟨[.restoreStart, .restoreRead, .restoreRead] ++ s, ?_, ?_⟩
                  · simp only [updRestore, hs0, hs1, hst1, hw, hs2, hst2, if_pos]
                    simpa using hs
                  · exact List.forall_mem_append.mpr ⟨by decide, weaken s hsub⟩
            · obtain ⟨s, hs, hsub⟩ :=
                updDetect_shape e integ r1 (t ++ [.restoreStart, .restoreRead]) sc
              refine ⟨[.restoreStart, .restoreRead] ++ s, ?_, ?_⟩
              · simp only [updRestore, hs0, hs1, hst1, hw]
                simpa using hs
              · exact List.forall_mem_append.mpr ⟨by decide, weaken s hsub⟩

theorem updRestore_no_backup (e : UpdateEnv) (integ : Integration) (bd : Option PyVal)
    (t : List RAct) (sc cfg : Bool) (h : RAct.backup ∉ t) :
    RAct.backup ∉ (updRestore e integ bd t sc cfg).trace := by
  obtain ⟨s, hs, hsub⟩ := updRestore_shape e integ bd t sc cfg
  rw [hs]
  intro hmem
  rcases List.mem_append.mp hmem with h1 | h1
  · exact h h1
  · rcases hsub _ h1 with h2 | h2 | h2 | h2 | h2 <;> simp at h2

theorem updMigrationCheck_no_backup (e : UpdateEnv) (integ : Integration)
    (mra : Option String) (bd : Option PyVal) (t : List RAct) (cfg : Bool)
    (h : RAct.backup ∉ t) :
    RAct.backup ∉ (updMigrationCheck e integ mra bd t cfg).trace := by
  unfold updMigrationCheck
  by_cases hv : (integ.version != "") = true
  · rw [if_pos hv]
    cases hg : e.getDriverOutcome with
    | exn => simp [h]
    | ok info => exact updRestore_no_backup _ _ _ _ _ _ (by simp [h])
  · rw [if_neg hv]
    exact updRestore_no_backup _ _ _ _ _ _ h

theorem updAfterBackup_no_backup (e : UpdateEnv) (integ : Integration)
    (mra : Option String) (bd : Option PyVal) (t : List RAct) (cfg : Bool)
    (h : RAct.backup ∉ t) :
    RAct.backup ∉ (updAfterBackup e integ mra bd t cfg).trace := by
  unfold updAfterBackup
  by_cases hp : (!e.parseUrlOk) = true
  · rw [if_pos hp]; exact h
  · rw [if_neg hp]
    cases hd : e.downloadOutcome with
    | exn => simp [h]
    | ok got =>
      cases got with
      | false => simp [h]
      | true =>
        cases hdel : e.deleteOutcome with
        | syncConn => simp [h]
        | exn => simp [h]
        | ok =>
          cases hins : e.installOutcome with
          | exn => simp [h]
          | ok u =>
            cases hgd : e.getDriversOutcome with
            | exn => simp [h]
            | ok u2 => exact updMigrationCheck_no_backup _ _ _ _ _ _ (by simp [h])
        | syncOther =>
          cases hins : e.installOutcome with
          | exn => simp [h]
          | ok u =>
            cases hgd : e.getDriversOutcome with
            | exn => simp [h]
            | ok u2 => exact updMigrationCheck_no_backup _ _ _ _ _ _ (by simp [h])

theorem updTail_result (e : UpdateEnv) (t : List RAct) :
    (updTail e t).result = .updated := by
  unfold updTail; split <;> rfl

theorem updTail_lock (e : UpdateEnv) (t : List RAct) :
    (updTail e t).lockHeld = false := by
  unfold updTail; split <;> rfl

theorem updDetect_result (e : UpdateEnv) (integ : Integration) (resp : PyVal)
    (t : List RAct) (sc : Bool) :
    (updDetect e integ resp t sc).result = .updated := by
  unfold updDetect
  repeat' split
  all_goals first | rfl | apply updTail_result

theorem updDetect_lock (e : UpdateEnv) (integ : Integration) (resp : PyVal)
    (t : List RAct) (sc : Bool) :
    (updDetect e integ resp t sc).lockHeld = false := by
  unfold updDetect
  repeat' split
  all_goals first | rfl | apply updTail_lock

theorem updRestore_result (e : UpdateEnv) (integ : Integration) (bd : Option PyVal)
    (t : List RAct) (sc cfg : Bool) :
    (updRestore e integ bd t sc cfg).result = .updated := by
  unfold updRestore
  repeat' split
  all_goals first | rfl | apply updDetect_result

theorem updRestore_lock (e : UpdateEnv) (integ : Integration) (bd : Option PyVal)
    (t : List RAct) (sc cfg : Bool) :
    (updRestore e integ bd t sc cfg).lockHeld = false := by
  unfold updRestore
  repeat' split
  all_goals first | rfl | apply updDetect_lock

theorem updMigrationCheck_result (e : UpdateEnv) (integ : Integration)
    (mra : Option String) (bd : Option PyVal) (t : List RAct) (cfg : Bool) :
    (updMigrationCheck e integ mra bd t cfg).result = .updated ∨
    (updMigrationCheck e integ mra bd t cfg).result = .internalError := by
  unfold updMigrationCheck
  repeat' split
  all_goals first
    | exact Or.inr rfl
    | exact Or.inl (updRestore_result _ _ _ _ _ _)

theorem updMigrationCheck_lock (e : UpdateEnv) (integ : Integration)
    (mra : Option String) (bd : Option PyVal) (t : List RAct) (cfg : Bool) :
    (updMigrationCheck e integ mra bd t cfg).lockHeld = false := by
  unfold updMigrationCheck
  repeat' split
  all_goals first | rfl | apply updRestore_lock

theorem updMigrationCheck_ne_busy (e : UpdateEnv) (integ : Integration)
    (mra : Option String) (bd : Option PyVal) (t : List RAct) (cfg : Bool) :
    (updMigrationCheck e integ mra bd t cfg).result ≠ .busy := by
  rcases updMigrationCheck_result e integ mra bd t cfg with h | h <;> simp [h]

theorem updAfterBackup_ne_busy (e : UpdateEnv) (integ : Integration)
    (mra : Option String) (bd : Option PyVal) (t : List RAct) (cfg : Bool) :
    (updAfterBackup e integ mra bd t cfg).result ≠ .busy := by
  unfold updAfterBackup
  repeat' split
  all_goals first | apply updMigrationCheck_ne_busy | simp

theorem updAfterBackup_lock (e : UpdateEnv) (integ : Integration)
    (mra : Option String) (bd : Option PyVal) (t : List RAct) (cfg : Bool) :
    (updAfterBackup e integ mra bd t cfg).lockHeld = false := by
  unfold updAfterBackup
  repeat' split
  all_goals first | rfl | apply updMigrationCheck_lock

theorem updAfterBoundary_ne_busy (e : UpdateEnv) (integ : Integration)
    (mra : Option String) :
    (updAfterBoundary e integ mra).result ≠ .busy := by
  unfold updAfterBoundary
  repeat' split
  all_goals first | apply updAfterBackup_ne_busy | simp

theorem updAfterBoundary_lock (e : UpdateEnv) (integ : Integration)
    (mra : Option String) :
    (updAfterBoundary e integ mra).lockHeld = false := by
  unfold updAfterBoundary
  repeat' split
  all_goals first | rfl | apply updAfterBackup_lock

theorem instAfterBoundary_ne_busy (e : InstallEnv) :
    (instAfterBoundary e).result ≠ .busy := by
  unfold instAfterBoundary
  repeat' split
  all_goals simp

theorem instAfterBoundary_lock (e : InstallEnv) :
    (instAfterBoundary e).lockHeld = false := by
  unfold instAfterBoundary
  repeat' split
  all_goals rfl

theorem updFound_ne_busy (e : UpdateEnv) (integ : Integration) :
    (updFound e integ).result ≠ .busy := by
  unfold updFound
  repeat' split
  all_goals first | apply updAfterBoundary_ne_busy | simp

/-- C4: the operation lock is exclusive and non-queuing.  A second
acquisition without an intervening release fails and leaves the flag
set; after a release the next acquisition succeeds; and at the
lifecycle entry points (update and install), an entry while the flag is
set is rejected immediately with the distinct busy result (HTTP 409)
having performed no remote-side action and left the holder's flag
intact, while an entry with the flag clear is never rejected as busy. -/
theorem operation_lock_exclusive (eU : UpdateEnv) (eI : InstallEnv)
    (hU : eU.clientsInit = true) (hI : eI.clientsInit = true) :
    ((tryAcquire false).2 = true ∧
     (tryAcquire (tryAcquire false).1).2 = false ∧
     tryAcquire (tryAcquire false).1 = ((tryAcquire false).1, false) ∧
     (tryAcquire (releaseLock (tryAcquire false).1)).2 = true) ∧
    (eU.inProgress = true → performUpdateIntegration eU = ⟨.busy, [], true⟩) ∧
    (eI.inProgress = true → installIntegration eI = ⟨.busy, [], true⟩) ∧
    (eU.inProgress = false → (performUpdateIntegration eU).result ≠ .busy) ∧
    (eI.inProgress = false → (installIntegration eI).result ≠ .busy) := by
  refine ⟨by decide, ?_, ?_, ?_, ?_⟩
  · intro h
    simp [performUpdateIntegration, hU, h]
  · intro h
    simp [installIntegration, hI, h]
  · intro h
    unfold performUpdateIntegration
    rw [hU, h]
    repeat' split
    all_goals first | apply updFound_ne_busy | simp_all
  · intro h
    unfold installIntegration
    rw [hI, h]
    repeat' split
    all_goals first | apply instAfterBoundary_ne_busy | simp_all

/-- C4 witness: concrete busy and free entries at both entry points. -/
theorem operation_lock_exclusive_witness :
    (performUpdateIntegration
      ⟨true, true, "inst-1", false, Option.none, [], true, [], .ok [], .ok .none, true,
        .ok true, .ok, .ok (), .ok (), .ok Option.none, .ok (), .ok .none, .ok .none, .ok ()⟩
      = ⟨.busy, [], true⟩) ∧
    (installIntegration
      ⟨true, true, "drv-1", Option.none, true, [], true, .ok true, .ok ()⟩
      = ⟨.busy, [], true⟩) ∧
    ((tryAcquire false).2 = true ∧
     (tryAcquire (tryAcquire false).1).2 = false ∧
     tryAcquire (tryAcquire false).1 = ((tryAcquire false).1, false) ∧
     (tryAcquire (releaseLock (tryAcquire false).1)).2 = true) := by
  refine ⟨?_, ?_, ?_⟩
  · exact (operation_lock_exclusive
      ⟨true, true, "inst-1", false, Option.none, [], true, [], .ok [], .ok .none, true,
        .ok true, .ok, .ok (), .ok (), .ok Option.none, .ok (), .ok .none, .ok .none, .ok ()⟩
      ⟨true, true, "drv-1", Option.none, true, [], true, .ok true, .ok ()⟩
      rfl rfl).2.1 rfl
  · exact (operation_lock_exclusive
      ⟨true, true, "inst-1", false, Option.none, [], true, [], .ok [], .ok .none, true,
        .ok true, .ok, .ok (), .ok (), .ok Option.none, .ok (), .ok .none, .ok .none, .ok ()⟩
      ⟨true, true, "drv-1", Option.none, true, [], true, .ok true, .ok ()⟩
      rfl rfl).2.2.1 rfl
  · exact (operation_lock_exclusive
      ⟨true, true, "inst-1", false, Option.none, [], true, [], .ok [], .ok .none, true,
        .ok true, .ok, .ok (), .ok (), .ok Option.none, .ok (), .ok .none, .ok .none, .ok ()⟩
      ⟨true, true, "drv-1", Option.none, true, [], true, .ok true, .ok ()⟩
      rfl rfl).1

theorem updCaptureT_mem (e : UpdateEnv) (integ : Integration) (a : RAct)
    (ha : a ≠ RAct.getConfiguredEntities) : a ∉ updCaptureT e integ := by
  unfold updCaptureT
  split <;> simp [ha]

theorem updAfterBoundary_backup_fail (e : UpdateEnv) (integ : Integration)
    (mra : Option String)
    (hmem : RAct.backup ∈ (updAfterBoundary e integ mra).trace)
    (hfail : e.backupOutcome = .exn ∨
      ∃ bd, e.backupOutcome = .ok bd ∧ pyTruthy bd = false) :
    (updAfterBoundary e integ mra).result = .backupFailed ∧
    RAct.download ∉ (updAfterBoundary e integ mra).trace ∧
    RAct.deleteDriver ∉ (updAfterBoundary e integ mra).trace ∧
    RAct.installDriver ∉ (updAfterBoundary e integ mra).trace ∧
    (updAfterBoundary e integ mra).lockHeld = false := by
  have hbf : updBackupFails e = true := by
    unfold updBackupFails
    rcases hfail with hx | ⟨bd, hbd, hfb⟩
    · rw [hx]
    · rw [hbd]; simp [hfb]
  unfold updAfterBoundary at hmem ⊢
  by_cases hc : (updIsConfigured e integ && updCanBackup e integ) = true
  · rw [if_pos hc, if_pos hbf] at hmem ⊢
    refine ⟨rfl, ?_, ?_, ?_, rfl⟩ <;>
      · intro hm
        rcases List.mem_append.mp hm with hm1 | hm1
        · exact updCaptureT_mem e integ _ (by simp) hm1
        · simp at hm1
  · rw [if_neg hc] at hmem
    exact absurd hmem
      (updAfterBackup_no_backup e integ mra Option.none (updCaptureT e integ)
        (updIsConfigured e integ) (updCaptureT_mem e integ _ (by simp)))

/-- C5: during an update in which the backup step runs (in the source
it runs exactly for a configured instance whose driver supports backup
at or above the registry's minimum backup version) and the backup fails
— the call raises or returns no data — the pipeline aborts with the
HTTP 400 backup-failure result and performs no later stage: no
download, no driver deletion, no installation, and the operation lock
is released. -/
theorem mandatory_backup_failure_aborts (e : UpdateEnv)
    (hmem : RAct.backup ∈ (performUpdateIntegration e).trace)
    (hfail : e.backupOutcome = .exn ∨
      ∃ bd, e.backupOutcome = .ok bd ∧ pyTruthy bd = false) :
    (performUpdateIntegration e).result = .backupFailed ∧
    RAct.download ∉ (performUpdateIntegration e).trace ∧
    RAct.deleteDriver ∉ (performUpdateIntegration e).trace ∧
    RAct.installDriver ∉ (performUpdateIntegration e).trace ∧
    (performUpdateIntegration e).lockHeld = false := by
  have hfound : ∀ integ : Integration,
      RAct.backup ∈ (updFound e integ).trace →
      (updFound e integ).result = .backupFailed ∧
      RAct.download ∉ (updFound e integ).trace ∧
      RAct.deleteDriver ∉ (updFound e integ).trace ∧
      RAct.installDriver ∉ (updFound e integ).trace ∧
      (updFound e integ).lockHeld = false := by
    intro integ hm
    unfold updFound at hm ⊢
    by_cases h3 : integ.official = true
    · rw [if_pos h3] at hm; simp at hm
    rw [if_neg h3] at hm ⊢
    by_cases h4 : (integ.home_page == "" || !containsGithub integ.home_page) = true
    · rw [if_pos h4] at hm; simp at hm
    rw [if_neg h4] at hm ⊢
    by_cases h5 : (truthyOpt e.version && truthyOpt (updBoundary e integ)) = true
    · rw [if_pos h5] at hm ⊢
      cases hp1 : parseVersion (stripLeadingV (e.version.getD "")) with
      | none => simp [hp1] at hm
      | some cv =>
        cases hp2 : parseVersion ((updBoundary e integ).getD "") with
        | none => simp [hp1, hp2] at hm
        | some bv =>
          by_cases h6 : versionLe cv bv = true
          · exfalso; simp [hp1, hp2, h6] at hm
          · have hm2 : RAct.backup ∈ (updAfterBoundary e integ (updBoundary e integ)).trace := by
              simpa [hp1, hp2, h6] using hm
            have hc := updAfterBoundary_backup_fail e integ (updBoundary e integ) hm2 hfail
            simpa [hp1, hp2, h6] using hc
    · rw [if_neg h5] at hm ⊢
      exact updAfterBoundary_backup_fail e integ _ hm hfail
  unfold performUpdateIntegration at hmem ⊢
  by_cases h1 : (!e.clientsInit) = true
  · rw [if_pos h1] at hmem; simp at hmem
  rw [if_neg h1] at hmem ⊢
  by_cases h2 : e.inProgress = true
  · rw [if_pos h2] at hmem; simp at hmem
  rw [if_neg h2] at hmem ⊢
  cases hf : e.integrations.find? (fun i => i.instance_id == e.instanceId) with
  | none => simp [hf] at hmem
  | some integ =>
    have hmem2 : RAct.backup ∈ (updFound e integ).trace := by
      simpa [hf] using hmem
    have hres := hfound integ hmem2
    simpa [hf] using hres

/-- C5 witness: a configured instance with backup support whose backup
call returns no data. -/
theorem mandatory_backup_failure_aborts_witness :
    (performUpdateIntegration
      ⟨true, false, "inst-1", false, Option.none,
        [⟨"inst-1", "drv-1", "1.2.0", "https://github.com/o/r", false, true⟩],
        true, [⟨"drv-1", "drv-1", "https://github.com/o/r", Option.none, Option.none⟩],
        .ok [], .ok .none, true, .ok true, .ok, .ok (), .ok (), .ok Option.none,
        .ok (), .ok .none, .ok .none, .ok ()⟩).result = .backupFailed ∧
    RAct.download ∉ (performUpdateIntegration
      ⟨true, false, "inst-1", false, Option.none,
        [⟨"inst-1", "drv-1", "1.2.0", "https://github.com/o/r", false, true⟩],
        true, [⟨"drv-1", "drv-1", "https://github.com/o/r", Option.none, Option.none⟩],
        .ok [], .ok .none, true, .ok true, .ok, .ok (), .ok (), .ok Option.none,
        .ok (), .ok .none, .ok .none, .ok ()⟩).trace := by
  have h := mandatory_backup_failure_aborts
    ⟨true, false, "inst-1", false, Option.none,
      [⟨"inst-1", "drv-1", "1.2.0", "https://github.com/o/r", false, true⟩],
      true, [⟨"drv-1", "drv-1", "https://github.com/o/r", Option.none, Option.none⟩],
      .ok [], .ok .none, true, .ok true, .ok, .ok (), .ok (), .ok Option.none,
      .ok (), .ok .none, .ok .none, .ok ()⟩
    (by decide) (Or.inr ⟨.none, rfl, rfl⟩)
  exact ⟨h.1, h.2.1⟩

theorem updFound_boundary_reject (e : UpdateEnv) (integ : Integration)
    (en : RegistryEntry) (v b : String) (pv pb : List Nat)
    (hreg : e.registryLoadOk = true)
    (hfind : e.registry.find? (fun en => en.driver_id == integ.driver_id) = some en)
    (hmra : en.migration_required_at = some b) (hbne : b ≠ "")
    (hv : e.version = some v) (hvne : v ≠ "")
    (hp1 : parseVersion (stripLeadingV v) = some pv)
    (hp2 : parseVersion b = some pb)
    (hle : versionLe pv pb = true) :
    ((updFound e integ).result = .boundaryRejected ∨
     (updFound e integ).result = .officialRejected ∨
     (updFound e integ).result = .noGithub) ∧
    (updFound e integ).trace = [] ∧
    (updFound e integ).lockHeld = false := by
  unfold updFound
  by_cases h3 : integ.official = true
  · rw [if_pos h3]; exact ⟨Or.inr (Or.inl rfl), rfl, rfl⟩
  rw [if_neg h3]
  by_cases h4 : (integ.home_page == "" || !containsGithub integ.home_page) = true
  · rw [if_pos h4]; exact ⟨Or.inr (Or.inr rfl), rfl, rfl⟩
  rw [if_neg h4]
  have hb : updBoundary e integ = some b := by
    simp [updBoundary, hreg, hfind, hmra]
  have hcond : (truthyOpt e.version && truthyOpt (updBoundary e integ)) = true := by
    simp [hv, hb, truthyOpt, hvne, hbne]
  rw [if_pos hcond]
  have hgd : e.version.getD "" = v := by simp [hv]
  have hgb : (updBoundary e integ).getD "" = b := by simp [hb]
  simp [hgd, hgb, hp1, hp2, hle]

/-- C10: an update or install request naming an explicit target version
whose cleaned form compares less than or equal to the registry's
migration_required_at boundary is rejected with an error response
before any remote-side action — no backup, no driver deletion, no
download, no install — and the operation lock is released
(web_server.py lines 1042-1067 and 2598-2625). -/
theorem version_boundary_guard (eU : UpdateEnv) (eI : InstallEnv)
    (integ : Integration) (enU itemI : RegistryEntry)
    (vU bU vI bI : String) (pvU pbU pvI pbI : List Nat)
    (hUinit : eU.clientsInit = true) (hUprog : eU.inProgress = false)
    (hUfindI : eU.integrations.find? (fun i => i.instance_id == eU.instanceId) = some integ)
    (hUreg : eU.registryLoadOk = true)
    (hUfind : eU.registry.find? (fun en => en.driver_id == integ.driver_id) = some enU)
    (hUmra : enU.migration_required_at = some bU) (hUbne : bU ≠ "")
    (hUv : eU.version = some vU) (hUvne : vU ≠ "")
    (hUp1 : parseVersion (stripLeadingV vU) = some pvU)
    (hUp2 : parseVersion bU = some pbU)
    (hUle : versionLe pvU pbU = true)
    (hIinit : eI.clientsInit = true) (hIprog : eI.inProgress = false)
    (hIreg : eI.registryLoadOk = true)
    (hIfind : eI.registry.find? (fun it => it.id == eI.driverId) = some itemI)
    (hImra : itemI.migration_required_at = some bI) (hIbne : bI ≠ "")
    (hIv : eI.version = some vI) (hIvne : vI ≠ "")
    (hIp1 : parseVersion (stripLeadingV vI) = some pvI)
    (hIp2 : parseVersion bI = some pbI)
    (hIle : versionLe pvI pbI = true) :
    (((performUpdateIntegration eU).result = .boundaryRejected ∨
      (performUpdateIntegration eU).result = .officialRejected ∨
      (performUpdateIntegration eU).result = .noGithub) ∧
     (performUpdateIntegration eU).trace = [] ∧
     (performUpdateIntegration eU).lockHeld = false) ∧
    installIntegration eI = ⟨.boundaryRejected, [], false⟩ := by
  constructor
  · have hrun : performUpdateIntegration eU = updFound eU integ := by
      simp [performUpdateIntegration, hUinit, hUprog, hUfindI]
    rw [hrun]
    exact updFound_boundary_reject eU integ enU vU bU pvU pbU hUreg hUfind hUmra hUbne
      hUv hUvne hUp1 hUp2 hUle
  · have hgd : eI.version.getD "" = vI := by simp [hIv]
    have hgb : itemI.migration_required_at.getD "" = bI := by simp [hImra]
    have hcond : (truthyOpt eI.version && truthyOpt itemI.migration_required_at) = true := by
      simp [hIv, hImra, truthyOpt, hIvne, hIbne]
    simp [installIntegration, hIinit, hIprog, hIreg, hIfind, hcond, hgd, hgb,
      hIp1, hIp2, hIle]

/-- C10 witness: explicit version v1.5.0 against boundary 2.0.0, for
both entry points. -/
theorem version_boundary_guard_witness :
    (((performUpdateIntegration
        ⟨true, false, "inst-1", false, some "v1.5.0",
          [⟨"inst-1", "drv-1", "1.2.0", "https://github.com/o/r", false, true⟩],
          true, [⟨"drv-1", "drv-1", "https://github.com/o/r", some "2.0.0", Option.none⟩],
          .ok [], .ok .none, true, .ok true, .ok, .ok (), .ok (), .ok Option.none,
          .ok (), .ok .none, .ok .none, .ok ()⟩).result = .boundaryRejected ∨
      (performUpdateIntegration
        ⟨true, false, "inst-1", false, some "v1.5.0",
          [⟨"inst-1", "drv-1", "1.2.0", "https://github.com/o/r", false, true⟩],
          true, [⟨"drv-1", "drv-1", "https://github.com/o/r", some "2.0.0", Option.none⟩],
          .ok [], .ok .none, true, .ok true, .ok, .ok (), .ok (), .ok Option.none,
          .ok (), .ok .none, .ok .none, .ok ()⟩).result = .officialRejected ∨
      (performUpdateIntegration
        ⟨true, false, "inst-1", false, some "v1.5.0",
          [⟨"inst-1", "drv-1", "1.2.0", "https://github.com/o/r", false, true⟩],
          true, [⟨"drv-1", "drv-1", "https://github.com/o/r", some "2.0.0", Option.none⟩],
          .ok [], .ok .none, true, .ok true, .ok, .ok (), .ok (), .ok Option.none,
          .ok (), .ok .none, .ok .none, .ok ()⟩).result = .noGithub) ∧
     (performUpdateIntegration
        ⟨true, false, "inst-1", false, some "v1.5.0",
          [⟨"inst-1", "drv-1", "1.2.0", "https://github.com/o/r", false, true⟩],
          true, [⟨"drv-1", "drv-1", "https://github.com/o/r", some "2.0.0", Option.none⟩],
          .ok [], .ok .none, true, .ok true, .ok, .ok (), .ok (), .ok Option.none,
          .ok (), .ok .none, .ok .none, .ok ()⟩).trace = [] ∧
     (performUpdateIntegration
        ⟨true, false, "inst-1", false, some "v1.5.0",
          [⟨"inst-1", "drv-1", "1.2.0", "https://github.com/o/r", false, true⟩],
          true, [⟨"drv-1", "drv-1", "https://github.com/o/r", some "2.0.0", Option.none⟩],
          .ok [], .ok .none, true, .ok true, .ok, .ok (), .ok (), .ok Option.none,
          .ok (), .ok .none, .ok .none, .ok ()⟩).lockHeld = false) ∧
    installIntegration
      ⟨true, false, "drv-1", some "v1.5.0", true,
        [⟨"drv-1", "drv-1", "https://github.com/o/r", some "2.0.0", Option.none⟩],
        true, .ok true, .ok ()⟩ = ⟨.boundaryRejected, [], false⟩ :=
  version_boundary_guard
    ⟨true, false, "inst-1", false, some "v1.5.0",
      [⟨"inst-1", "drv-1", "1.2.0", "https://github.com/o/r", false, true⟩],
      true, [⟨"drv-1", "drv-1", "https://github.com/o/r", some "2.0.0", Option.none⟩],
      .ok [], .ok .none, true, .ok true, .ok, .ok (), .ok (), .ok Option.none,
      .ok (), .ok .none, .ok .none, .ok ()⟩
    ⟨true, false, "drv-1", some "v1.5.0", true,
      [⟨"drv-1", "drv-1", "https://github.com/o/r", some "2.0.0", Option.none⟩],
      true, .ok true, .ok ()⟩
    ⟨"inst-1", "drv-1", "1.2.0", "https://github.com/o/r", false, true⟩
    ⟨"drv-1", "drv-1", "https://github.com/o/r", some "2.0.0", Option.none⟩
    ⟨"drv-1", "drv-1", "https://github.com/o/r", some "2.0.0", Option.none⟩
    "v1.5.0" "2.0.0" "v1.5.0" "2.0.0" [1, 5, 0] [2, 0, 0] [1, 5, 0] [2, 0, 0]
    rfl rfl rfl rfl rfl rfl (by decide) rfl (by decide) rfl rfl rfl
    rfl rfl rfl rfl rfl (by decide) rfl (by decide) rfl rfl rfl

theorem updMigrationCheck_prefix (e : UpdateEnv) (integ : Integration)
    (mra : Option String) (bd : Option PyVal) (t : List RAct) (cfg : Bool) :
    ∃ s, (updMigrationCheck e integ mra bd t cfg).trace = t ++ s := by
  unfold updMigrationCheck
  by_cases hv : (integ.version != "") = true
  · rw [if_pos hv]
    cases hg : e.getDriverOutcome with
    | exn => exact ⟨[.getDriver], rfl⟩
    | ok info =>
      obtain ⟨s, hs, _⟩ := updRestore_shape e integ bd (t ++ [.getDriver]) _ cfg
      exact ⟨[.getDriver] ++ s, by simpa using hs⟩
  · rw [if_neg hv]
    obtain ⟨s, hs, _⟩ := updRestore_shape e integ bd t false cfg
    exact ⟨s, hs⟩

theorem updAfterBackup_download (e : UpdateEnv) (integ : Integration)
    (mra : Option String) (bd : Option PyVal) (t : List RAct) (cfg : Bool)
    (hurl : e.parseUrlOk = true) :
    RAct.download ∈ (updAfterBackup e integ mra bd t cfg).trace := by
  unfold updAfterBackup
  rw [if_neg (by simp [hurl])]
  cases hd : e.downloadOutcome with
  | exn => simp
  | ok got =>
    cases got with
    | false => simp
    | true =>
      have hmem : ∀ t2 : List RAct, RAct.download ∈ t2 →
          RAct.download ∈ (updMigrationCheck e integ mra bd t2 cfg).trace := by
        intro t2 h2
        obtain ⟨s, hs⟩ := updMigrationCheck_prefix e integ mra bd t2 cfg
        rw [hs]
        exact List.mem_append.mpr (Or.inl h2)
      cases hdel : e.deleteOutcome with
      | syncConn => simp
      | exn => simp
      | ok =>
        cases hins : e.installOutcome with
        | exn => simp
        | ok u =>
          cases hgd : e.getDriversOutcome with
          | exn => simp
          | ok u2 => exact hmem _ (by simp)
      | syncOther =>
        cases hins : e.installOutcome with
        | exn => simp
        | ok u =>
          cases hgd : e.getDriversOutcome with
          | exn => simp
          | ok u2 => exact hmem _ (by simp)

theorem updMigrationCheck_ne_backupFailed (e : UpdateEnv) (integ : Integration)
    (mra : Option String) (bd : Option PyVal) (t : List RAct) (cfg : Bool) :
    (updMigrationCheck e integ mra bd t cfg).result ≠ .backupFailed := by
  rcases updMigrationCheck_result e integ mra bd t cfg with h | h <;> simp [h]

theorem updAfterBackup_ne_backupFailed (e : UpdateEnv) (integ : Integration)
    (mra : Option String) (bd : Option PyVal) (t : List RAct) (cfg : Bool) :
    (updAfterBackup e integ mra bd t cfg).result ≠ .backupFailed := by
  unfold updAfterBackup
  repeat' split
  all_goals first | apply updMigrationCheck_ne_backupFailed | simp

/-- C6: a configured instance whose driver declares backup support with
a registry backup_min_version of "1.0.0" while the installed version is
"0.9.0" (strictly below the minimum) is updated without a mandatory
backup: the backup step is skipped, the pipeline proceeds to the
download stage, and no backup-failure abort occurs (web_server.py
lines 1107-1134 and 1187-1197). -/
theorem backup_min_version_waiver (e : UpdateEnv) (integ : Integration)
    (en : RegistryEntry)
    (hinit : e.clientsInit = true) (hprog : e.inProgress = false)
    (hfindI : e.integrations.find? (fun i => i.instance_id == e.instanceId) = some integ)
    (hoff : integ.official = false)
    (hhp : integ.home_page ≠ "") (hgh : containsGithub integ.home_page = true)
    (hver0 : e.version = Option.none)
    (hcfg1 : e.instanceId ≠ "") (hcfg2 : integ.instance_id ≠ "")
    (hsb : integ.supports_backup = true)
    (hreg : e.registryLoadOk = true)
    (hfind : e.registry.find? (fun en => en.driver_id == integ.driver_id) = some en)
    (hmin : en.backup_min_version = some "1.0.0")
    (hver : integ.version = "0.9.0")
    (hurl : e.parseUrlOk = true) :
    RAct.backup ∉ (performUpdateIntegration e).trace ∧
    RAct.download ∈ (performUpdateIntegration e).trace ∧
    (performUpdateIntegration e).result ≠ .backupFailed := by
  have hrun : performUpdateIntegration e = updFound e integ := by
    simp [performUpdateIntegration, hinit, hprog, hfindI]
  have hgh2 : (integ.home_page == "" || !containsGithub integ.home_page) = false := by
    simp [hhp, hgh]
  have hcond : (truthyOpt e.version && truthyOpt (updBoundary e integ)) = false := by
    simp [hver0, truthyOpt]
  have hrun2 : updFound e integ = updAfterBoundary e integ (updBoundary e integ) := by
    unfold updFound
    rw [if_neg (by simp [hoff]), if_neg (by simp [hgh2]), if_neg (by simp [hcond])]
  have hcb : updCanBackup e integ = false := by
    have hmv : updMinVersion e integ = some "1.0.0" := by
      simp [updMinVersion, hreg, hfind, hmin]
    unfold updCanBackup
    rw [hmv, hver, hsb]
    decide
  have hrun3 : updAfterBoundary e integ (updBoundary e integ) =
      updAfterBackup e integ (updBoundary e integ) Option.none (updCaptureT e integ)
        (updIsConfigured e integ) := by
    unfold updAfterBoundary
    rw [if_neg (by simp [hcb])]
  rw [hrun, hrun2, hrun3]
  refine ⟨?_, ?_, ?_⟩
  · exact updAfterBackup_no_backup e integ _ _ _ _ (updCaptureT_mem e integ _ (by simp))
  · exact updAfterBackup_download e integ _ _ _ _ hurl
  · exact updAfterBackup_ne_backupFailed e integ _ _ _ _

/-- C6 witness: the concrete scenario from the claim. -/
theorem backup_min_version_waiver_witness :
    RAct.backup ∉ (performUpdateIntegration
      ⟨true, false, "inst-1", false, Option.none,
        [⟨"inst-1", "drv-1", "0.9.0", "https://github.com/o/r", false, true⟩],
        true, [⟨"drv-1", "drv-1", "https://github.com/o/r", Option.none, some "1.0.0"⟩],
        .ok [], .ok .none, true, .ok true, .ok, .ok (), .ok (), .ok Option.none,
        .ok (), .ok .none, .ok .none, .ok ()⟩).trace ∧
    RAct.download ∈ (performUpdateIntegration
      ⟨true, false, "inst-1", false, Option.none,
        [⟨"inst-1", "drv-1", "0.9.0", "https://github.com/o/r", false, true⟩],
        true, [⟨"drv-1", "drv-1", "https://github.com/o/r", Option.none, some "1.0.0"⟩],
        .ok [], .ok .none, true, .ok true, .ok, .ok (), .ok (), .ok Option.none,
        .ok (), .ok .none, .ok .none, .ok ()⟩).trace := by
  have h := backup_min_version_waiver
    ⟨true, false, "inst-1", false, Option.none,
      [⟨"inst-1", "drv-1", "0.9.0", "https://github.com/o/r", false, true⟩],
      true, [⟨"drv-1", "drv-1", "https://github.com/o/r", Option.none, some "1.0.0"⟩],
      .ok [], .ok .none, true, .ok true, .ok, .ok (), .ok (), .ok Option.none,
      .ok (), .ok .none, .ok .none, .ok ()⟩
    ⟨"inst-1", "drv-1", "0.9.0", "https://github.com/o/r", false, true⟩
    ⟨"drv-1", "drv-1", "https://github.com/o/r", Option.none, some "1.0.0"⟩
    rfl rfl rfl rfl (by decide) (by decide) rfl (by decide) (by decide) rfl rfl rfl
    rfl rfl rfl
  exact ⟨h.1, h.2.1⟩

theorem parseVersion_ne_empty {s : String} {l : List Nat}
    (h : parseVersion s = some l) : s ≠ "" := by
  intro he
  rw [he] at h
  simp [parseVersion] at h

/-- C7: in an update whose restore phase runs (successful mandatory
backup of a configured instance, clean install, restore session
reaching WAIT_USER_ACTION), the migration-detection pass executes if
and only if the registry's migration_required_at boundary is non-empty
and the parsed previous version is strictly below it (web_server.py
lines 1311-1338 and 1375-1446). -/
theorem migration_detection_boundary (e : UpdateEnv) (integ : Integration)
    (en : RegistryEntry) (pv : List Nat) (below : Bool) (bd r1 : PyVal)
    (info : Option String)
    (hinit : e.clientsInit = true) (hprog : e.inProgress = false)
    (hfindI : e.integrations.find? (fun i => i.instance_id == e.instanceId) = some integ)
    (hoff : integ.official = false)
    (hhp : integ.home_page ≠ "") (hgh : containsGithub integ.home_page = true)
    (hver0 : e.version = Option.none)
    (hcfg1 : e.instanceId ≠ "") (hcfg2 : integ.instance_id ≠ "")
    (hsb : integ.supports_backup = true)
    (hreg : e.registryLoadOk = true)
    (hfind : e.registry.find? (fun en => en.driver_id == integ.driver_id) = some en)
    (hminNone : en.backup_min_version = Option.none)
    (hbk : e.backupOutcome = .ok bd) (hbdT : pyTruthy bd = true)
    (hurl : e.parseUrlOk = true)
    (hdl : e.downloadOutcome = .ok true)
    (hdel : e.deleteOutcome = .ok)
    (hins : e.installOutcome = .ok ())
    (hgdr : e.getDriversOutcome = .ok ())
    (hgd : e.getDriverOutcome = .ok info)
    (hpv : parseVersion integ.version = some pv)
    (hbelow : boundaryRequiresCheck pv en.migration_required_at = some below)
    (hrs : e.restoreStartOutcome = .ok ())
    (hr1 : e.restoreGet1 = .ok r1)
    (hst : pyGetD r1 "state" (.str "") = .ok (.str "WAIT_USER_ACTION")) :
    (RAct.migrationDetect ∈ (performUpdateIntegration e).trace) ↔ below = true := by
  have hvne : integ.version ≠ "" := parseVersion_ne_empty hpv
  have hvne2 : (integ.version != "") = true := by simp [hvne]
  have hrun : performUpdateIntegration e = updFound e integ := by
    simp [performUpdateIntegration, hinit, hprog, hfindI]
  have hmra : updBoundary e integ = en.migration_required_at := by
    simp [updBoundary, hreg, hfind]
  have hrun2 : updFound e integ = updAfterBoundary e integ (updBoundary e integ) := by
    unfold updFound
    rw [if_neg (by simp [hoff]), if_neg (by simp [hhp, hgh]),
      if_neg (by simp [hver0, truthyOpt])]
  have hcfg : updIsConfigured e integ = true := by
    simp [updIsConfigured, hcfg1, hcfg2]
  have hcb : updCanBackup e integ = true := by
    have hmv : updMinVersion e integ = Option.none := by
      simp [updMinVersion, hreg, hfind, hminNone]
    simp [updCanBackup, hmv, hsb, truthyOpt]
  have hbf : updBackupFails e = false := by
    simp [updBackupFails, hbk, hbdT]
  have hbv : updBackupValue e = bd := by
    simp [updBackupValue, hbk]
  have hrun3 : updAfterBoundary e integ (updBoundary e integ) =
      updAfterBackup e integ (updBoundary e integ) (some bd)
        (updCaptureT e integ ++ [.backup]) true := by
    unfold updAfterBoundary
    rw [if_pos (by simp [hcfg, hcb]), hbv, hcfg]
    rw [if_neg (by simp [hbf])]
  have hrun4 : updAfterBackup e integ (updBoundary e integ) (some bd)
      (updCaptureT e integ ++ [.backup]) true =
      updMigrationCheck e integ (updBoundary e integ) (some bd)
        (updCaptureT e integ ++ [.backup] ++
          [.download, .deleteDriver, .installDriver, .getDrivers]) true := by
    unfold updAfterBackup
    rw [if_neg (by simp [hurl])]
    simp only [hdl, hdel, hins, hgdr]
  rw [hrun, hrun2, hrun3, hrun4]
  set t0 := updCaptureT e integ ++ [.backup] ++
    [.download, .deleteDriver, .installDriver, .getDrivers] with ht0
  have ht0detect : RAct.migrationDetect ∉ t0 := by
    rw [ht0]
    intro hm
    rcases List.mem_append.mp hm with hm1 | hm1
    · rcases List.mem_append.mp hm1 with hm2 | hm2
      · exact updCaptureT_mem e integ _ (by simp) hm2
      · simp at hm2
    · simp at hm1
  have hsc : updMigrationCheck e integ (updBoundary e integ) (some bd) t0 true =
      updRestore e integ (some bd) (t0 ++ [.getDriver])
        (if truthyOpt (updBoundary e integ) then
          match parseVersion integ.version, parseVersion ((updBoundary e integ).getD "") with
          | some p, some b => versionLt p b
          | _, _ => true
         else false) true := by
    unfold updMigrationCheck
    rw [if_pos hvne2]
    simp only [hgd]
  rw [hsc]
  set sc := (if truthyOpt (updBoundary e integ) then
      match parseVersion integ.version, parseVersion ((updBoundary e integ).getD "") with
      | some p, some b => versionLt p b
      | _, _ => true
    else false) with hscdef
  have hscval : sc = below := by
    rw [hscdef, hmra]
    rcases hmb : en.migration_required_at with _ | b
    · rw [hmb] at hbelow
      simp [boundaryRequiresCheck] at hbelow
      simp [truthyOpt, hbelow]
    · rw [hmb] at hbelow
      by_cases hbe : b = ""
      · subst hbe
        simp [boundaryRequiresCheck] at hbelow
        simp [truthyOpt, hbelow]
      · simp only [boundaryRequiresCheck, if_neg hbe] at hbelow
        cases hpb : parseVersion b with
        | none => rw [hpb] at hbelow; simp at hbelow
        | some pbv =>
          rw [hpb] at hbelow
          simp at hbelow
          rw [if_pos (by simp [truthyOpt, hbe])]
          simp [hpv, hpb, hbelow]
  rw [hscval]
  have hrest : updRestore e integ (some bd) (t0 ++ [.getDriver]) below true =
      updDetect e integ r1 (t0 ++ [.getDriver] ++ [.restoreStart, .restoreRead]) below := by
    unfold updRestore
    simp only [hrs, hr1, hst]
    rw [if_neg (by simp [pyEqStr])]
    rfl
  rw [hrest]
  set t1 := t0 ++ [.getDriver] ++ [.restoreStart, .restoreRead] with ht1
  have ht1detect : RAct.migrationDetect ∉ t1 := by
    rw [ht1]
    intro hm
    rcases List.mem_append.mp hm with hm1 | hm1
    · rcases List.mem_append.mp hm1 with hm2 | hm2
      · exact ht0detect hm2
      · simp at hm2
    · simp at hm1
  constructor
  · intro hm
    by_contra hne
    have hbfalse : below = false := by
      cases below
      · rfl
      · exact absurd rfl hne
    rw [hbfalse] at hm
    unfold updDetect at hm
    rw [if_neg (by simp)] at hm
    obtain ⟨s, hs, hsub⟩ := updTail_shape e t1
    rw [hs] at hm
    rcases List.mem_append.mp hm with hm1 | hm1
    · exact ht1detect hm1
    · rcases hsub _ hm1 with h | h <;> simp at h
  · intro hb
    rw [hb]
    unfold updDetect
    rw [if_pos (by simp [hvne2])]
    cases hscan : migrationDetectScan r1 with
    | error err => simp
    | ok u =>
      obtain ⟨s, hs, _⟩ := updTail_shape e (t1 ++ [.migrationDetect])
      rw [hs]
      simp

/-- C7 witness: boundary 2.0.0 with previous version 1.5.0 runs the
detection pass; previous version 2.0.1 skips it. -/
theorem migration_detection_boundary_witness :
    RAct.migrationDetect ∈ (performUpdateIntegration
      ⟨true, false, "inst-1", false, Option.none,
        [⟨"inst-1", "drv-1", "1.5.0", "https://github.com/o/r", false, true⟩],
        true, [⟨"drv-1", "drv-1", "https://github.com/o/r", some "2.0.0", Option.none⟩],
        .ok [], .ok (.str "[]"), true, .ok true, .ok, .ok (), .ok (), .ok Option.none,
        .ok (), .ok (.dict [("state", .str "WAIT_USER_ACTION")]), .ok .none, .ok ()⟩).trace ∧
    RAct.migrationDetect ∉ (performUpdateIntegration
      ⟨true, false, "inst-1", false, Option.none,
        [⟨"inst-1", "drv-1", "2.0.1", "https://github.com/o/r", false, true⟩],
        true, [⟨"drv-1", "drv-1", "https://github.com/o/r", some "2.0.0", Option.none⟩],
        .ok [], .ok (.str "[]"), true, .ok true, .ok, .ok (), .ok (), .ok Option.none,
        .ok (), .ok (.dict [("state", .str "WAIT_USER_ACTION")]), .ok .none, .ok ()⟩).trace := by
  constructor
  · exact (migration_detection_boundary
      ⟨true, false, "inst-1", false, Option.none,
        [⟨"inst-1", "drv-1", "1.5.0", "https://github.com/o/r", false, true⟩],
        true, [⟨"drv-1", "drv-1", "https://github.com/o/r", some "2.0.0", Option.none⟩],
        .ok [], .ok (.str "[]"), true, .ok true, .ok, .ok (), .ok (), .ok Option.none,
        .ok (), .ok (.dict [("state", .str "WAIT_USER_ACTION")]), .ok .none, .ok ()⟩
      ⟨"inst-1", "drv-1", "1.5.0", "https://github.com/o/r", false, true⟩
      ⟨"drv-1", "drv-1", "https://github.com/o/r", some "2.0.0", Option.none⟩
      [1, 5, 0] true (.str "[]") (.dict [("state", .str "WAIT_USER_ACTION")])
      Option.none
      rfl rfl rfl rfl (by decide) (by decide) rfl (by decide) (by decide) rfl rfl
      rfl rfl rfl rfl rfl rfl rfl rfl rfl rfl rfl rfl rfl rfl rfl).mpr rfl
  · intro hm
    have hfalse := (migration_detection_boundary
      ⟨true, false, "inst-1", false, Option.none,
        [⟨"inst-1", "drv-1", "2.0.1", "https://github.com/o/r", false, true⟩],
        true, [⟨"drv-1", "drv-1", "https://github.com/o/r", some "2.0.0", Option.none⟩],
        .ok [], .ok (.str "[]"), true, .ok true, .ok, .ok (), .ok (), .ok Option.none,
        .ok (), .ok (.dict [("state", .str "WAIT_USER_ACTION")]), .ok .none, .ok ()⟩
      ⟨"inst-1", "drv-1", "2.0.1", "https://github.com/o/r", false, true⟩
      ⟨"drv-1", "drv-1", "https://github.com/o/r", some "2.0.0", Option.none⟩
      [2, 0, 1] false (.str "[]") (.dict [("state", .str "WAIT_USER_ACTION")])
      Option.none
      rfl rfl rfl rfl (by decide) (by decide) rfl (by decide) (by decide) rfl rfl
      rfl rfl rfl rfl rfl rfl rfl rfl rfl rfl rfl rfl rfl rfl rfl).mp hm
    simp at hfalse

theorem subFieldDictOK_spec {es : List (String × PyVal)} {sub : String}
    (h : subFieldDictOK es sub = true) :
    ∃ fes des, dictGetD es "field" (.dict []) = .dict fes ∧
      dictGetD fes sub (.dict []) = .dict des := by
  unfold subFieldDictOK at h
  cases hf : dictGetD es "field" (.dict []) with
  | dict fes =>
    simp only [hf] at h
    cases hd : dictGetD fes sub (.dict []) with
    | dict des => exact ⟨fes, des, rfl, hd⟩
    | none => simp [hd] at h
    | bool b => simp [hd] at h
    | int i => simp [hd] at h
    | str s => simp [hd] at h
    | list xs => simp [hd] at h
  | none => simp [hf] at h
  | bool b => simp [hf] at h
  | int i => simp [hf] at h
  | str s => simp [hf] at h
  | list xs => simp [hf] at h

theorem firstChoiceLoop_ok (items : List PyVal)
    (h : ∀ s ∈ items, wellShapedSetting s = true) :
    ∃ v, firstChoiceLoop items = .ok v := by
  induction items with
  | nil => exact ⟨.none, rfl⟩
  | cons s rest ih =>
    have hws := h s (by simp)
    cases s with
    | dict es =>
      by_cases hid : pyEqStr (dictGetD es "id" .none) "choice" = true
      · have hsub : subFieldDictOK es "dropdown" = true := by
          simp [wellShapedSetting, hid] at hws
          exact hws.1.1
        obtain ⟨fes, des, hf, hd⟩ := subFieldDictOK_spec hsub
        refine ⟨dictGetD des "value" .none, ?_⟩
        simp [firstChoiceLoop, pyGet, pyGetD, hid, hf, hd, Bind.bind, Except.bind]
      · obtain ⟨v, hv⟩ := ih (fun x hx => h x (by simp [hx]))
        refine ⟨v, ?_⟩
        simp [firstChoiceLoop, pyGet, pyGetD, hid, hv, Bind.bind, Except.bind]
    | none => simp [wellShapedSetting] at hws
    | bool b => simp [wellShapedSetting] at hws
    | int i => simp [wellShapedSetting] at hws
    | str s2 => simp [wellShapedSetting] at hws
    | list xs => simp [wellShapedSetting] at hws

theorem firstChoiceLoop_none (items : List PyVal)
    (h : ∀ s ∈ items, wellShapedSetting s = true)
    (hid : ∀ s ∈ items, pyEqStr (pvGetD s "id" .none) "choice" = false) :
    firstChoiceLoop items = .ok .none := by
  induction items with
  | nil => rfl
  | cons s rest ih =>
    have hws := h s (by simp)
    cases s with
    | dict es =>
      have hid1 : pyEqStr (dictGetD es "id" .none) "choice" = false := by
        have := hid (.dict es) (by simp)
        simpa [pvGetD] using this
      simp [firstChoiceLoop, pyGet, pyGetD, hid1, Bind.bind, Except.bind]
      exact ih (fun x hx => h x (by simp [hx])) (fun x hx => hid x (by simp [hx]))
    | none => simp [wellShapedSetting] at hws
    | bool b => simp [wellShapedSetting] at hws
    | int i => simp [wellShapedSetting] at hws
    | str s2 => simp [wellShapedSetting] at hws
    | list xs => simp [wellShapedSetting] at hws

theorem backupDataLoop_ok (items : List PyVal)
    (h : ∀ s ∈ items, wellShapedSetting s = true) :
    ∃ v, backupDataLoop items = .ok v := by
  induction items with
  | nil => exact ⟨.none, rfl⟩
  | cons s rest ih =>
    have hws := h s (by simp)
    cases s with
    | dict es =>
      by_cases hid : pyEqStr (dictGetD es "id" .none) "backup_data" = true
      · have hsub : subFieldDictOK es "textarea" = true := by
          simp [wellShapedSetting, hid] at hws
          tauto
        obtain ⟨fes, des, hf, hd⟩ := subFieldDictOK_spec hsub
        refine ⟨dictGetD des "value" .none, ?_⟩
        simp [backupDataLoop, pyGet, pyGetD, hid, hf, hd, Bind.bind, Except.bind]
      · obtain ⟨v, hv⟩ := ih (fun x hx => h x (by simp [hx]))
        refine ⟨v, ?_⟩
        simp [backupDataLoop, pyGet, pyGetD, hid, hv, Bind.bind, Except.bind]
    | none => simp [wellShapedSetting] at hws
    | bool b => simp [wellShapedSetting] at hws
    | int i => simp [wellShapedSetting] at hws
    | str s2 => simp [wellShapedSetting] at hws
    | list xs => simp [wellShapedSetting] at hws

theorem backupDataLoop_none (items : List PyVal)
    (h : ∀ s ∈ items, wellShapedSetting s = true)
    (hid : ∀ s ∈ items, pyEqStr (pvGetD s "id" .none) "backup_data" = false) :
    backupDataLoop items = .ok .none := by
  induction items with
  | nil => rfl
  | cons s rest ih =>
    have hws := h s (by simp)
    cases s with
    | dict es =>
      have hid1 : pyEqStr (dictGetD es "id" .none) "backup_data" = false := by
        have := hid (.dict es) (by simp)
        simpa [pvGetD] using this
      simp [backupDataLoop, pyGet, pyGetD, hid1, Bind.bind, Except.bind]
      exact ih (fun x hx => h x (by simp [hx])) (fun x hx => hid x (by simp [hx]))
    | none => simp [wellShapedSetting] at hws
    | bool b => simp [wellShapedSetting] at hws
    | int i => simp [wellShapedSetting] at hws
    | str s2 => simp [wellShapedSetting] at hws
    | list xs => simp [wellShapedSetting] at hws

theorem pyJsonLoadsVal_ok_str {v j : PyVal} (h : pyJsonLoadsVal v = .ok j) :
    ∃ sv, v = .str sv ∧ pyJsonLoads sv = some j := by
  unfold pyJsonLoadsVal at h
  cases v with
  | str sv =>
    cases hp : pyJsonLoads sv with
    | some j2 =>
      simp only [hp] at h
      cases h
      exact ⟨sv, rfl, hp⟩
    | none => simp [hp] at h
  | none => simp at h
  | bool b => simp at h
  | int i => simp at h
  | list xs => simp at h
  | dict es => simp at h

theorem pyJsonLoadsVal_error {v : PyVal} {e : PyExc} (h : pyJsonLoadsVal v = .error e) :
    e = .jsonDecodeError ∨ e = .typeError := by
  unfold pyJsonLoadsVal at h
  cases v with
  | str sv =>
    cases hp : pyJsonLoads sv with
    | some j2 => simp [hp] at h
    | none => simp only [hp] at h; cases h; exact Or.inl rfl
  | none => cases h; exact Or.inr rfl
  | bool b => cases h; exact Or.inr rfl
  | int i => cases h; exact Or.inr rfl
  | list xs => cases h; exact Or.inr rfl
  | dict es => cases h; exact Or.inr rfl

theorem migrationLoop_ok (items : List PyVal)
    (h : ∀ s ∈ items, wellShapedSetting s = true) :
    (∃ l, migrationLoop items = .ok l) ∨ migrationLoop items = .error .typeError := by
  induction items with
  | nil => exact Or.inl ⟨[], rfl⟩
  | cons s rest ih =>
    have hws := h s (by simp)
    have ih2 := ih (fun x hx => h x (by simp [hx]))
    cases s with
    | dict es =>
      by_cases hid : pyEqStr (dictGetD es "id" .none) "migration_data" = true
      · have hpair : subFieldDictOK es "textarea" = true ∧ migrationValueOK es = true := by
          simp [wellShapedSetting, hid] at hws
          tauto
        obtain ⟨fes, tes, hf, ht⟩ := subFieldDictOK_spec hpair.1
        have hstep : migrationLoop (PyVal.dict es :: rest) =
            (if pyTruthy (dictGetD tes "value" (.str "")) then
              match pyJsonLoadsVal (dictGetD tes "value" (.str "")) with
              | .ok md =>
                (do
                  let em ← pyGetD md "entity_mappings" (.list [])
                  match em with
                  | .list ms => pure ms
                  | _ => migrationLoop rest)
              | .error .jsonDecodeError => migrationLoop rest
              | .error e => .error e
            else migrationLoop rest) := by
          simp [migrationLoop, pyGet, pyGetD, hid, hf, ht, Bind.bind, Except.bind]
        rw [hstep]
        by_cases htr : pyTruthy (dictGetD tes "value" (.str "")) = true
        · rw [if_pos htr]
          cases hlv : pyJsonLoadsVal (dictGetD tes "value" (.str "")) with
          | error err =>
            rcases pyJsonLoadsVal_error hlv with he | he
            · subst he
              exact ih2
            · subst he
              exact Or.inr rfl
          | ok md =>
            obtain ⟨sv, hsv, hp⟩ := pyJsonLoadsVal_ok_str hlv
            cases md with
            | dict ds =>
              cases hm : dictGetD ds "entity_mappings" (.list []) with
              | list ms =>
                exact Or.inl ⟨ms, by simp [pyGetD, hm, Bind.bind, Except.bind, pure, Except.pure]⟩
              | none => simpa [pyGetD, hm, Bind.bind, Except.bind] using ih2
              | bool b => simpa [pyGetD, hm, Bind.bind, Except.bind] using ih2
              | int i => simpa [pyGetD, hm, Bind.bind, Except.bind] using ih2
              | str s2 => simpa [pyGetD, hm, Bind.bind, Except.bind] using ih2
              | dict ds2 => simpa [pyGetD, hm, Bind.bind, Except.bind] using ih2
            | none =>
              have := hpair.2
              simp [migrationValueOK, hf, ht, hsv, hp] at this
            | bool b =>
              have := hpair.2
              simp [migrationValueOK, hf, ht, hsv, hp] at this
            | int i =>
              have := hpair.2
              simp [migrationValueOK, hf, ht, hsv, hp] at this
            | str s2 =>
              have := hpair.2
              simp [migrationValueOK, hf, ht, hsv, hp] at this
            | list xs =>
              have := hpair.2
              simp [migrationValueOK, hf, ht, hsv, hp] at this
        · rw [if_neg htr]
          exact ih2
      · have hstep : migrationLoop (PyVal.dict es :: rest) = migrationLoop rest := by
          simp [migrationLoop, pyGet, pyGetD, hid, Bind.bind, Except.bind]
        rw [hstep]
        exact ih2
    | none => simp [wellShapedSetting] at hws
    | bool b => simp [wellShapedSetting] at hws
    | int i => simp [wellShapedSetting] at hws
    | str s2 => simp [wellShapedSetting] at hws
    | list xs => simp [wellShapedSetting] at hws

theorem migrationLoop_none (items : List PyVal)
    (h : ∀ s ∈ items, wellShapedSetting s = true)
    (hid : ∀ s ∈ items, pyEqStr (pvGetD s "id" .none) "migration_data" = false) :
    migrationLoop items = .ok [] := by
  induction items with
  | nil => rfl
  | cons s rest ih =>
    have hws := h s (by simp)
    cases s with
    | dict es =>
      have hid1 : pyEqStr (dictGetD es "id" .none) "migration_data" = false := by
        have := hid (.dict es) (by simp)
        simpa [pvGetD] using this
      have hstep : migrationLoop (PyVal.dict es :: rest) = migrationLoop rest := by
        simp [migrationLoop, pyGet, pyGetD, hid1, Bind.bind, Except.bind]
      rw [hstep]
      exact ih (fun x hx => h x (by simp [hx])) (fun x hx => hid x (by simp [hx]))
    | none => simp [wellShapedSetting] at hws
    | bool b => simp [wellShapedSetting] at hws
    | int i => simp [wellShapedSetting] at hws
    | str s2 => simp [wellShapedSetting] at hws
    | list xs => simp [wellShapedSetting] at hws

/-- C9 (counterexample): the claim that the extraction functions never
raise fails on the code.  A response whose `require_user_action` value
is a string (wrongly-typed nested structure) makes the chained `.get`
calls raise AttributeError, which none of the `except` clauses
(KeyError/TypeError/IndexError) catches, in all three extractors
(backup_service.py lines 83-96 and 110-123, migration_service.py lines
58-102). -/
theorem extraction_raises_attribute_error :
    extractFirstChoiceId (.dict [("require_user_action", .str "oops")]) =
      .error .attributeError ∧
    extractBackupData (.dict [("require_user_action", .str "oops")]) =
      .error .attributeError ∧
    extractMigrationMappings (.dict [("require_user_action", .str "oops")]) =
      .error .attributeError :=
  ⟨rfl, rfl, rfl⟩

/-- C9 (amended): on well-shaped setup responses — every value reached
by a `.get` chain is a dict, settings is a list of well-shaped settings
or an unsized scalar — the three extraction functions never raise, and
a response without the looked-for field yields the absent result (None,
None, and the empty list respectively). -/
theorem extraction_total_on_well_shaped (resp : PyVal)
    (h : wellShapedResponse resp = true) :
    ((∃ v, extractFirstChoiceId resp = .ok v) ∧
     (∃ v, extractBackupData resp = .ok v) ∧
     (∃ l, extractMigrationMappings resp = .ok l)) ∧
    ((∀ s ∈ settingsItemsOf resp, pyEqStr (pvGetD s "id" .none) "choice" = false) →
      extractFirstChoiceId resp = .ok .none) ∧
    ((∀ s ∈ settingsItemsOf resp, pyEqStr (pvGetD s "id" .none) "backup_data" = false) →
      extractBackupData resp = .ok .none) ∧
    ((∀ s ∈ settingsItemsOf resp, pyEqStr (pvGetD s "id" .none) "migration_data" = false) →
      extractMigrationMappings resp = .ok []) := by
  cases resp with
  | dict es =>
    cases hrua : dictGetD es "require_user_action" (.dict []) with
    | dict rs =>
      cases hin : dictGetD rs "input" (.dict []) with
      | dict is_ =>
        cases hset : dictGetD is_ "settings" (.list []) with
        | list items =>
          have hall : ∀ s ∈ items, wellShapedSetting s = true := by
            simp [wellShapedResponse, hrua, hin, hset] at h
            intro s hs
            exact h s hs
          have hitems : settingsItemsOf (.dict es) = items := by
            simp [settingsItemsOf, pvGetD, hrua, hin, hset]
          have hc1 : extractFirstChoiceId (.dict es) =
              pyCatch (firstChoiceLoop items) [.keyError, .typeError, .indexError] .none := by
            simp [extractFirstChoiceId, settingsOf, pyGetD, hrua, hin, hset, pyIterate,
              Bind.bind, Except.bind]
          have hc2 : extractBackupData (.dict es) =
              pyCatch (backupDataLoop items) [.keyError, .typeError] .none := by
            simp [extractBackupData, settingsOf, pyGetD, hrua, hin, hset, pyIterate,
              Bind.bind, Except.bind]
          have hc3 : extractMigrationMappings (.dict es) =
              pyCatch (migrationLoop items) [.keyError, .typeError] [] := by
            simp [extractMigrationMappings, pyGetD, hrua, hin, hset, pyIterate, pyLen,
              Bind.bind, Except.bind]
          refine ⟨⟨?_, ?_, ?_⟩, ?_, ?_, ?_⟩
          · obtain ⟨v, hv⟩ := firstChoiceLoop_ok items hall
            exact ⟨v, by rw [hc1, hv]; rfl⟩
          · obtain ⟨v, hv⟩ := backupDataLoop_ok items hall
            exact ⟨v, by rw [hc2, hv]; rfl⟩
          · rcases migrationLoop_ok items hall with ⟨l, hl⟩ | hl
            · exact ⟨l, by rw [hc3, hl]; rfl⟩
            · exact ⟨[], by rw [hc3, hl]; rfl⟩
          · intro hid
            rw [hitems] at hid
            rw [hc1, firstChoiceLoop_none items hall hid]
            rfl
          · intro hid
            rw [hitems] at hid
            rw [hc2, backupDataLoop_none items hall hid]
            rfl
          · intro hid
            rw [hitems] at hid
            rw [hc3, migrationLoop_none items hall hid]
            rfl
        | int i =>
          refine ⟨⟨⟨.none, ?_⟩, ⟨.none, ?_⟩, ⟨[], ?_⟩⟩, fun _ => ?_, fun _ => ?_, fun _ => ?_⟩ <;>
            simp [extractFirstChoiceId, extractBackupData, extractMigrationMappings,
              settingsOf, pyGetD, hrua, hin, hset, pyIterate, pyLen, pyCatch,
              Bind.bind, Except.bind]
        | bool b =>
          refine ⟨⟨⟨.none, ?_⟩, ⟨.none, ?_⟩, ⟨[], ?_⟩⟩, fun _ => ?_, fun _ => ?_, fun _ => ?_⟩ <;>
            simp [extractFirstChoiceId, extractBackupData, extractMigrationMappings,
              settingsOf, pyGetD, hrua, hin, hset, pyIterate, pyLen, pyCatch,
              Bind.bind, Except.bind]
        | none =>
          refine ⟨⟨⟨.none, ?_⟩, ⟨.none, ?_⟩, ⟨[], ?_⟩⟩, fun _ => ?_, fun _ => ?_, fun _ => ?_⟩ <;>
            simp [extractFirstChoiceId, extractBackupData, extractMigrationMappings,
              settingsOf, pyGetD, hrua, hin, hset, pyIterate, pyLen, pyCatch,
              Bind.bind, Except.bind]
        | str s2 => simp [wellShapedResponse, hrua, hin, hset] at h
        | dict ds2 => simp [wellShapedResponse, hrua, hin, hset] at h
      | none => simp [wellShapedResponse, hrua, hin] at h
      | bool b => simp [wellShapedResponse, hrua, hin] at h
      | int i => simp [wellShapedResponse, hrua, hin] at h
      | str s2 => simp [wellShapedResponse, hrua, hin] at h
      | list xs => simp [wellShapedResponse, hrua, hin] at h
    | none => simp [wellShapedResponse, hrua] at h
    | bool b => simp [wellShapedResponse, hrua] at h
    | int i => simp [wellShapedResponse, hrua] at h
    | str s2 => simp [wellShapedResponse, hrua] at h
    | list xs => simp [wellShapedResponse, hrua] at h
  | none => simp [wellShapedResponse] at h
  | bool b => simp [wellShapedResponse] at h
  | int i => simp [wellShapedResponse] at h
  | str s2 => simp [wellShapedResponse] at h
  | list xs => simp [wellShapedResponse] at h

/-- C9 witness: a well-shaped response with one "choice" setting:
extraction succeeds everywhere and the migration lookup yields the
empty list. -/
theorem extraction_total_on_well_shaped_witness :
    ((∃ v, extractFirstChoiceId (.dict [("require_user_action", .dict [("input", .dict
        [("settings", .list [.dict [("id", .str "choice"), ("field", .dict
          [("dropdown", .dict [("value", .str "dev-1")])])]])])])]) = .ok v) ∧
     (∃ v, extractBackupData (.dict [("require_user_action", .dict [("input", .dict
        [("settings", .list [.dict [("id", .str "choice"), ("field", .dict
          [("dropdown", .dict [("value", .str "dev-1")])])]])])])]) = .ok v) ∧
     (∃ l, extractMigrationMappings (.dict [("require_user_action", .dict [("input", .dict
        [("settings", .list [.dict [("id", .str "choice"), ("field", .dict
          [("dropdown", .dict [("value", .str "dev-1")])])]])])])]) = .ok l)) ∧
    extractMigrationMappings (.dict [("require_user_action", .dict [("input", .dict
        [("settings", .list [.dict [("id", .str "choice"), ("field", .dict
          [("dropdown", .dict [("value", .str "dev-1")])])]])])])]) = .ok [] := by
  have h := extraction_total_on_well_shaped
    (.dict [("require_user_action", .dict [("input", .dict
      [("settings", .list [.dict [("id", .str "choice"), ("field", .dict
        [("dropdown", .dict [("value", .str "dev-1")])])]])])])])
    rfl
  exact ⟨h.1, h.2.2.2 (by decide)⟩

/-! ## JSON codec round-trip: whitespace and digits -/

theorem dropWs_cons_not {c : Char} {x : List Char} (h : isWsCh c = false) :
    dropWs (c :: x) = c :: x := by
  simp [dropWs, h]

theorem dropWs_cons_ws {c : Char} {x : List Char} (h : isWsCh c = true) :
    dropWs (c :: x) = dropWs x := by
  simp [dropWs, h]

theorem dropWs_all_ws {ws : List Char} (h : ∀ c ∈ ws, isWsCh c = true) :
    ∀ x, dropWs (ws ++ x) = dropWs x := by
  induction ws with
  | nil => intro x; rfl
  | cons c rest ih =>
    intro x
    rw [List.cons_append, dropWs_cons_ws (h c (by simp))]
    exact ih (fun d hd => h d (by simp [hd])) x

theorem dropWs_pad (n : Nat) (x : List Char) : dropWs (padSp n ++ x) = dropWs x :=
  dropWs_all_ws (by simp [padSp, isWsCh]) x

theorem dropWs_idem (x : List Char) : dropWs (dropWs x) = dropWs x := by
  induction x with
  | nil => rfl
  | cons c rest ih =>
    by_cases h : isWsCh c = true
    · rw [dropWs_cons_ws h]; exact ih
    · rw [dropWs_cons_not (by simpa using h), dropWs_cons_not (by simpa using h)]

theorem digit_char_spec (d : Nat) (h : d < 10) :
    isDigitCh (Char.ofNat ('0'.toNat + d)) = true ∧
    (Char.ofNat ('0'.toNat + d)).toNat - '0'.toNat = d := by
  interval_cases d <;> exact ⟨by decide, by decide⟩

theorem digitsVal_append_one (xs : List Char) (c : Char) :
    digitsVal (xs ++ [c]) = 10 * digitsVal xs + (c.toNat - '0'.toNat) := by
  simp [digitsVal, List.foldl_append]

theorem natChars_spec : ∀ (fuel n : Nat), n < 10 ^ fuel → 1 ≤ fuel →
    natChars fuel n ≠ [] ∧ (∀ c ∈ natChars fuel n, isDigitCh c = true) ∧
    digitsVal (natChars fuel n) = n := by
  intro fuel
  induction fuel with
  | zero => intro n _ h1; omega
  | succ f ih =>
    intro n h _
    by_cases h10 : n < 10
    · refine ⟨by simp [natChars, h10], ?_, ?_⟩
      · intro c hc
        simp [natChars, h10] at hc
        subst hc
        exact (digit_char_spec n h10).1
      · simp [natChars, h10, digitsVal]
        exact (digit_char_spec n h10).2
    · have hdiv : n / 10 < 10 ^ f := by
        rw [pow_succ] at h
        omega
      have hf1 : 1 ≤ f := by
        by_contra hf0
        have : f = 0 := by omega
        subst this
        simp at hdiv
        omega
      obtain ⟨hne, hdig, hval⟩ := ih (n / 10) hdiv hf1
      have hm : n % 10 < 10 := Nat.mod_lt _ (by omega)
      refine ⟨by simp [natChars, h10], ?_, ?_⟩
      · intro c hc
        simp only [natChars, if_neg h10, List.mem_append, List.mem_singleton] at hc
        rcases hc with hc | hc
        · exact hdig c hc
        · subst hc
          exact (digit_char_spec _ hm).1
      · simp only [natChars, if_neg h10]
        rw [digitsVal_append_one, hval, (digit_char_spec _ hm).2]
        omega

theorem nat_lt_ten_pow_succ (n : Nat) : n < 10 ^ (n + 1) := by
  calc n < 2 ^ n * 1 := by
        have := Nat.lt_two_pow n
        omega
    _ ≤ 10 ^ n * 10 := by
        exact Nat.mul_le_mul (Nat.pow_le_pow_left (by omega) n) (by omega)
    _ = 10 ^ (n + 1) := by rw [pow_succ]

theorem grabDigits_stop {x : List Char} (h : headNotDigit x = true) :
    grabDigits x = ([], x) := by
  cases x with
  | nil => rfl
  | cons c t =>
    simp [headNotDigit] at h
    simp [grabDigits, h]

theorem grabDigits_run (ds : List Char) (hds : ∀ c ∈ ds, isDigitCh c = true)
    (rest : List Char) (hrest : headNotDigit rest = true) :
    grabDigits (ds ++ rest) = (ds, rest) := by
  induction ds with
  | nil => simpa using grabDigits_stop hrest
  | cons c t ih =>
    have hc : isDigitCh c = true := hds c (by simp)
    have ht := ih (fun d hd => hds d (by simp [hd]))
    simp [grabDigits, hc, ht]

theorem readInt_not_minus {c : Char} {t ds r : List Char} (h : c ≠ '-')
    (hg : grabDigits (c :: t) = (ds, r)) :
    readInt (c :: t) =
      if ds.isEmpty then Option.none else some ((digitsVal ds : Int), r) := by
  unfold readInt
  split
  · rename_i cs1 heq
    exact absurd (List.head_eq_of_cons_eq heq) h
  · rw [hg]

theorem readInt_round (i : Int) (rest : List Char) (h : headNotDigit rest = true) :
    readInt (intChars i ++ rest) = some (i, rest) := by
  have hn := nat_lt_ten_pow_succ i.natAbs
  obtain ⟨hne, hdig, hval⟩ := natChars_spec (i.natAbs + 1) i.natAbs hn (by omega)
  have hgrab : grabDigits (natChars (i.natAbs + 1) i.natAbs ++ rest) =
      (natChars (i.natAbs + 1) i.natAbs, rest) := grabDigits_run _ hdig rest h
  by_cases hneg : i < 0
  · have harg : intChars i ++ rest = '-' :: (natChars (i.natAbs + 1) i.natAbs ++ rest) := by
      simp [intChars, hneg]
    rw [harg]
    simp only [readInt, hgrab]
    rw [if_neg (by simpa using hne)]
    have hi : -((i.natAbs : Nat) : Int) = i := by omega
    rw [hval, hi]
  · obtain ⟨c0, t0, heq⟩ := List.exists_cons_of_ne_nil hne
    have hc0 : isDigitCh c0 = true := hdig c0 (by rw [heq]; simp)
    have hcm : c0 ≠ '-' := by
      intro hrfl
      rw [hrfl] at hc0
      simp [isDigitCh] at hc0
    have harg : intChars i ++ rest = c0 :: (t0 ++ rest) := by
      simp [intChars, hneg, heq]
    rw [harg]
    have hgrab2 : grabDigits (c0 :: (t0 ++ rest)) = (c0 :: t0, rest) := by
      have := hgrab
      rw [heq] at this
      simpa using this
    rw [readInt_not_minus hcm hgrab2]
    rw [if_neg (by simp)]
    have hi : ((digitsVal (c0 :: t0) : Nat) : Int) = i := by
      have := hval
      rw [heq] at this
      rw [this]
      omega
    rw [hi]

theorem escCh_other {c : Char} (h1 : c ≠ '"') (h2 : c ≠ '\\') (h3 : c ≠ '\n')
    (h4 : c ≠ '\t') (h5 : c ≠ '\r') : escCh c = [c] := by
  rw [escCh.eq_def]
  split <;> first | rfl | simp_all

theorem strBody_cons_other {c : Char} (acc rest : List Char) (h1 : c ≠ '"')
    (h2 : c ≠ '\\') : strBody acc (c :: rest) = strBody (c :: acc) rest := by
  rw [strBody.eq_def]
  split <;> simp_all

theorem strBody_escCh (c : Char) (acc rest : List Char) :
    strBody acc (escCh c ++ rest) = strBody (c :: acc) rest := by
  by_cases h1 : c = '"'
  · subst h1; simp [escCh, esc2, strBody, unescapeCh]
  by_cases h2 : c = '\\'
  · subst h2; simp [escCh, esc2, strBody, unescapeCh]
  by_cases h3 : c = '\n'
  · subst h3; simp [escCh, esc2, strBody, unescapeCh]
  by_cases h4 : c = '\t'
  · subst h4; simp [escCh, esc2, strBody, unescapeCh]
  by_cases h5 : c = '\r'
  · subst h5; simp [escCh, esc2, strBody, unescapeCh]
  · rw [escCh_other h1 h2 h3 h4 h5]
    exact strBody_cons_other acc rest h1 h2

theorem strBody_render (cs : List Char) : ∀ (acc rest : List Char),
    strBody acc ((cs.map escCh).flatten ++ '"' :: rest) =
      some (String.mk (acc.reverse ++ cs), rest) := by
  induction cs with
  | nil => intro acc rest; simp [strBody]
  | cons c cs ih =>
    intro acc rest
    have hfl : ((c :: cs).map escCh).flatten ++ '"' :: rest =
        escCh c ++ ((cs.map escCh).flatten ++ '"' :: rest) := by
      simp [List.map_cons, List.flatten_cons, List.append_assoc]
    rw [hfl, strBody_escCh, ih]
    simp

theorem strBody_strChars (s : String) (rest : List Char) :
    strBody [] ((s.data.map escCh).flatten ++ '"' :: rest) = some (s, rest) := by
  rw [strBody_render]
  cases s
  rfl

theorem digit_not_special {c : Char} (h : isDigitCh c = true) :
    ∀ d ∈ ['n', 't', 'f', '"', '[', '{'], c ≠ d := by
  intro d hd
  fin_cases hd <;> (rintro rfl; exact absurd h (by decide))

theorem digit_props {c : Char} (h : isDigitCh c = true) :
    isWsCh c = false ∧ c ≠ ']' ∧ c ≠ '}' := by
  refine ⟨?_, ?_, ?_⟩
  · by_contra hw
    have hw1 : isWsCh c = true := by simpa using hw
    simp only [isWsCh, Bool.or_eq_true, beq_iff_eq] at hw1
    rcases hw1 with ((rfl | rfl) | rfl) | rfl <;> exact absurd h (by decide)
  · rintro rfl; exact absurd h (by decide)
  · rintro rfl; exact absurd h (by decide)

theorem jsonVal_null (f : Nat) (r : List Char) :
    jsonVal (f + 1) ('n' :: 'u' :: 'l' :: 'l' :: r) = some (.none, r) := by
  simp [jsonVal, dropWs, isWsCh]

theorem jsonVal_true (f : Nat) (r : List Char) :
    jsonVal (f + 1) ('t' :: 'r' :: 'u' :: 'e' :: r) = some (.bool true, r) := by
  simp [jsonVal, dropWs, isWsCh]

theorem jsonVal_false (f : Nat) (r : List Char) :
    jsonVal (f + 1) ('f' :: 'a' :: 'l' :: 's' :: 'e' :: r) = some (.bool false, r) := by
  simp [jsonVal, dropWs, isWsCh]

theorem jsonVal_str (f : Nat) (r : List Char) :
    jsonVal (f + 1) ('"' :: r) =
      (strBody [] r).map (fun p => (.str p.1, p.2)) := by
  simp [jsonVal, dropWs, isWsCh]

theorem jsonVal_digit (f : Nat) (c : Char) (t : List Char)
    (h : c = '-' ∨ isDigitCh c = true) :
    jsonVal (f + 1) (c :: t) = (readInt (c :: t)).map (fun p => (.int p.1, p.2)) := by
  have hw : isWsCh c = false := by
    rcases h with rfl | h
    · decide
    · exact (digit_props h).1
  have hd : dropWs (c :: t) = c :: t := dropWs_cons_not hw
  have hn : ∀ d ∈ ['n', 't', 'f', '"', '[', '{'], c ≠ d := by
    rcases h with rfl | h
    · intro d hd
      fin_cases hd <;> decide
    · exact digit_not_special h
  rw [jsonVal.eq_def]
  simp only [hd]
  split
  · rename_i heq; exact absurd (List.head_eq_of_cons_eq heq) (hn _ (by simp))
  · rename_i heq; exact absurd (List.head_eq_of_cons_eq heq) (hn _ (by simp))
  · rename_i heq; exact absurd (List.head_eq_of_cons_eq heq) (hn _ (by simp))
  · rename_i heq; exact absurd (List.head_eq_of_cons_eq heq) (hn _ (by simp))
  · rename_i heq; exact absurd (List.head_eq_of_cons_eq heq) (hn _ (by simp))
  · rename_i heq; exact absurd (List.head_eq_of_cons_eq heq) (hn _ (by simp))
  · rename_i heq
    obtain ⟨hc, hr⟩ := List.cons_eq_cons.mp heq
    rw [← hc, ← hr, if_pos]
    rcases h with rfl | h
    · simp
    · simp [h]
  · rename_i heq; exact absurd heq (by simp)

theorem jsonVal_arr_empty (f : Nat) {r r2 : List Char} (h : dropWs r = ']' :: r2) :
    jsonVal (f + 1) ('[' :: r) = some (.list [], r2) := by
  have hd : dropWs ('[' :: r) = '[' :: r := dropWs_cons_not (by decide)
  rw [jsonVal.eq_def]
  simp only [hd, h]

theorem jsonVal_arr_cons (f : Nat) {r : List Char} {c : Char} {t : List Char}
    (h : dropWs r = c :: t) (hc : c ≠ ']') :
    jsonVal (f + 1) ('[' :: r) =
      (jsonItems f (dropWs r)).map (fun p => (.list p.1, p.2)) := by
  have hd : dropWs ('[' :: r) = '[' :: r := dropWs_cons_not (by decide)
  rw [jsonVal.eq_def]
  simp only [hd]
  split
  · rename_i heq
    rw [h] at heq
    exact absurd (List.head_eq_of_cons_eq heq) hc
  · rfl

theorem jsonVal_obj_empty (f : Nat) {r r2 : List Char} (h : dropWs r = '}' :: r2) :
    jsonVal (f + 1) ('{' :: r) = some (.dict [], r2) := by
  have hd : dropWs ('{' :: r) = '{' :: r := dropWs_cons_not (by decide)
  rw [jsonVal.eq_def]
  simp only [hd, h]

theorem jsonVal_obj_cons (f : Nat) {r : List Char} {c : Char} {t : List Char}
    (h : dropWs r = c :: t) (hc : c ≠ '}') :
    jsonVal (f + 1) ('{' :: r) =
      (jsonEntries f (dropWs r)).map (fun p => (.dict (collapseAssoc p.1), p.2)) := by
  have hd : dropWs ('{' :: r) = '{' :: r := dropWs_cons_not (by decide)
  rw [jsonVal.eq_def]
  simp only [hd]
  split
  · rename_i heq
    rw [h] at heq
    exact absurd (List.head_eq_of_cons_eq heq) hc
  · rfl

theorem jsonVal_ws (f : Nat) {ws : List Char} (h : ∀ c ∈ ws, isWsCh c = true)
    (cs : List Char) : jsonVal f (ws ++ cs) = jsonVal f cs := by
  cases f with
  | zero => rfl
  | succ f =>
    simp only [jsonVal]
    rw [dropWs_all_ws h]

theorem jsonVal_dropWs (f : Nat) (cs : List Char) :
    jsonVal f (dropWs cs) = jsonVal f cs := by
  cases f with
  | zero => rfl
  | succ f =>
    simp only [jsonVal]
    rw [dropWs_idem]

theorem jsonItems_ws (f : Nat) {ws : List Char} (h : ∀ c ∈ ws, isWsCh c = true)
    (cs : List Char) : jsonItems f (ws ++ cs) = jsonItems f cs := by
  cases f with
  | zero => rfl
  | succ f =>
    simp only [jsonItems]
    rw [jsonVal_ws f h]

theorem jsonItems_dropWs (f : Nat) (cs : List Char) :
    jsonItems f (dropWs cs) = jsonItems f cs := by
  cases f with
  | zero => rfl
  | succ f =>
    simp only [jsonItems]
    rw [jsonVal_dropWs]

theorem jsonEntries_ws (f : Nat) {ws : List Char} (h : ∀ c ∈ ws, isWsCh c = true)
    (cs : List Char) : jsonEntries f (ws ++ cs) = jsonEntries f cs := by
  cases f with
  | zero => rfl
  | succ f =>
    simp only [jsonEntries]
    rw [dropWs_all_ws h]

theorem jsonEntries_dropWs (f : Nat) (cs : List Char) :
    jsonEntries f (dropWs cs) = jsonEntries f cs := by
  cases f with
  | zero => rfl
  | succ f =>
    simp only [jsonEntries]
    rw [dropWs_idem]

theorem intChars_cons (i : Int) :
    ∃ c t, intChars i = c :: t ∧ (c = '-' ∨ isDigitCh c = true) := by
  have hn := nat_lt_ten_pow_succ i.natAbs
  obtain ⟨hne, hdig, _⟩ := natChars_spec (i.natAbs + 1) i.natAbs hn (by omega)
  by_cases hneg : i < 0
  · exact ⟨'-', natChars (i.natAbs + 1) i.natAbs, by simp [intChars, hneg], Or.inl rfl⟩
  · obtain ⟨c, t, heq⟩ := List.exists_cons_of_ne_nil hne
    exact ⟨c, t, by simp [intChars, hneg, heq],
      Or.inr (hdig c (by rw [heq]; simp))⟩

theorem dumpChars_head (ind : Nat) (v : PyVal) :
    ∃ c t, dumpChars ind v = c :: t ∧ isWsCh c = false ∧ c ≠ ']' ∧ c ≠ '}' := by
  cases v with
  | none =>
    refine ⟨'n', _, rfl, ?_, ?_, ?_⟩ <;> decide
  | bool b =>
    cases b
    · refine ⟨'f', _, rfl, ?_, ?_, ?_⟩ <;> decide
    · refine ⟨'t', _, rfl, ?_, ?_, ?_⟩ <;> decide
  | int i =>
    obtain ⟨c, t, heq, hc⟩ := intChars_cons i
    refine ⟨c, t, by simpa [dumpChars] using heq, ?_, ?_, ?_⟩
    · rcases hc with rfl | hd
      · decide
      · exact (digit_props hd).1
    · rcases hc with rfl | hd
      · decide
      · exact (digit_props hd).2.1
    · rcases hc with rfl | hd
      · decide
      · exact (digit_props hd).2.2
  | str s =>
    refine ⟨'"', _, rfl, ?_, ?_, ?_⟩ <;> decide
  | list xs =>
    by_cases h : xs.isEmpty
    · refine ⟨'[', [']'], by simp [dumpChars, h], ?_, ?_, ?_⟩ <;> decide
    · refine ⟨'[', '\n' :: (dumpItemsChars (ind + 2) xs ++ '\n' :: (padSp ind ++ [']'])),
        by simp [dumpChars, h], ?_, ?_, ?_⟩ <;> decide
  | dict es =>
    by_cases h : es.isEmpty
    · refine ⟨'{', ['}'], by simp [dumpChars, h], ?_, ?_, ?_⟩ <;> decide
    · refine ⟨'{', '\n' :: (dumpEntriesChars (ind + 2) es ++ '\n' :: (padSp ind ++ ['}'])),
        by simp [dumpChars, h], ?_, ?_, ?_⟩ <;> decide

theorem dumpChars_length_pos (ind : Nat) (v : PyVal) :
    1 ≤ (dumpChars ind v).length := by
  obtain ⟨c, t, heq, -⟩ := dumpChars_head ind v
  rw [heq]
  simp

theorem rt_zero : RtVal 0 ∧ RtItems 0 ∧ RtEntries 0 := by
  refine ⟨?_, ?_, ?_⟩
  · intro ind v rest _ hlen _
    have := dumpChars_length_pos ind v
    omega
  · intro ind xs ws rest _ _ _ hlen
    omega
  · intro ind es ws rest _ _ _ hlen
    omega

theorem rt_step_val (f : Nat) (ih2 : RtItems f) (ih3 : RtEntries f) : RtVal (f + 1) := by
  intro ind v rest hwf hlen hrest
  cases v with
  | none => exact jsonVal_null f rest
  | bool b =>
    cases b with
    | true => exact jsonVal_true f rest
    | false => exact jsonVal_false f rest
  | int i =>
    obtain ⟨c, t, heq, hc⟩ := intChars_cons i
    have harg : dumpChars ind (.int i) ++ rest = c :: (t ++ rest) := by
      simp only [dumpChars, heq, List.cons_append]
    rw [harg, jsonVal_digit f c _ hc, ← List.cons_append, ← heq]
    rw [readInt_round i rest hrest]
    rfl
  | str s =>
    have harg : dumpChars ind (.str s) ++ rest =
        '"' :: ((s.data.map escCh).flatten ++ '"' :: rest) := by
      simp [dumpChars, strChars]
    rw [harg, jsonVal_str, strBody_strChars]
    rfl
  | list xs =>
    cases xs with
    | nil =>
      have harg : dumpChars ind (.list []) ++ rest = '[' :: ']' :: rest := rfl
      rw [harg]
      exact jsonVal_arr_empty f (dropWs_cons_not (by decide))
    | cons x xs =>
      have hwf' : wfKeys x = true ∧ wfKeysList xs = true := by
        simpa [wfKeys, wfKeysList] using hwf
      obtain ⟨c0, t0, hx, hws0, hc0r, -⟩ := dumpChars_head (ind + 2) x
      have harg : dumpChars ind (.list (x :: xs)) ++ rest =
          '[' :: ('\n' :: (dumpItemsChars (ind + 2) (x :: xs) ++
            '\n' :: (padSp ind ++ ']' :: rest))) := by
        simp [dumpChars, List.append_assoc]
      have hitems : dumpItemsChars (ind + 2) (x :: xs) ++
            '\n' :: (padSp ind ++ ']' :: rest) =
          padSp (ind + 2) ++ (dumpChars (ind + 2) x ++
            ((if xs.isEmpty then [] else [',', '\n']) ++ (dumpItemsChars (ind + 2) xs ++
              '\n' :: (padSp ind ++ ']' :: rest)))) := by
        simp [dumpItemsChars, List.append_assoc]
      have hdrop : dropWs ('\n' :: (dumpItemsChars (ind + 2) (x :: xs) ++
            '\n' :: (padSp ind ++ ']' :: rest))) =
          c0 :: (t0 ++ ((if xs.isEmpty then [] else [',', '\n']) ++
            (dumpItemsChars (ind + 2) xs ++ '\n' :: (padSp ind ++ ']' :: rest)))) := by
        rw [dropWs_cons_ws (by decide), hitems, dropWs_pad, hx, List.cons_append,
          dropWs_cons_not hws0]
      rw [harg, jsonVal_arr_cons f hdrop hc0r]
      have hlen2 : (dumpItemsChars (ind + 2) (x :: xs)).length + 1 ≤ f := by
        have : (dumpChars ind (.list (x :: xs))).length =
            (dumpItemsChars (ind + 2) (x :: xs)).length + ind + 4 := by
          simp [dumpChars, padSp]
          omega
        omega
      have hP2 := ih2 (ind + 2) (x :: xs) (padSp ind) rest
        (by simp [wfKeysList, hwf'.1, hwf'.2]) (by simp)
        (by simp [padSp, isWsCh]) hlen2
      rw [dropWs_cons_ws (by decide), hitems, dropWs_pad]
      have hback : dropWs (dumpChars (ind + 2) x ++
            ((if xs.isEmpty then [] else [',', '\n']) ++ (dumpItemsChars (ind + 2) xs ++
              '\n' :: (padSp ind ++ ']' :: rest)))) =
          dropWs (dumpItemsChars (ind + 2) (x :: xs) ++
            '\n' :: (padSp ind ++ ']' :: rest)) := by
        rw [hitems, dropWs_pad]
      rw [hback, jsonItems_dropWs]
      have hP2' : jsonItems f (dumpItemsChars (ind + 2) (x :: xs) ++
            '\n' :: (padSp ind ++ ']' :: rest)) = some (x :: xs, rest) := by
        simpa [List.append_assoc] using hP2
      rw [hP2']
      rfl
  | dict es =>
    cases es with
    | nil =>
      have harg : dumpChars ind (.dict []) ++ rest = '{' :: '}' :: rest := rfl
      rw [harg]
      exact jsonVal_obj_empty f (dropWs_cons_not (by decide))
    | cons e es =>
      obtain ⟨k, v0⟩ := e
      have hwf' : ((((k, v0) :: es).map Prod.fst).Nodup) ∧ wfKeys v0 = true ∧
          wfKeysEntries es = true := by
        simpa [wfKeys, wfKeysEntries] using hwf
      have harg : dumpChars ind (.dict ((k, v0) :: es)) ++ rest =
          '{' :: ('\n' :: (dumpEntriesChars (ind + 2) ((k, v0) :: es) ++
            '\n' :: (padSp ind ++ '}' :: rest))) := by
        simp [dumpChars, List.append_assoc]
      have hentries : dumpEntriesChars (ind + 2) ((k, v0) :: es) ++
            '\n' :: (padSp ind ++ '}' :: rest) =
          padSp (ind + 2) ++ ('"' :: (((k.data.map escCh).flatten ++ ['"']) ++
            (':' :: ' ' :: dumpChars (ind + 2) v0 ++
              ((if es.isEmpty then [] else [',', '\n']) ++ (dumpEntriesChars (ind + 2) es ++
                '\n' :: (padSp ind ++ '}' :: rest)))))) := by
        simp [dumpEntriesChars, strChars, List.append_assoc]
      have hdrop : dropWs ('\n' :: (dumpEntriesChars (ind + 2) ((k, v0) :: es) ++
            '\n' :: (padSp ind ++ '}' :: rest))) =
          '"' :: (((k.data.map escCh).flatten ++ ['"']) ++
            (':' :: ' ' :: dumpChars (ind + 2) v0 ++
              ((if es.isEmpty then [] else [',', '\n']) ++ (dumpEntriesChars (ind + 2) es ++
                '\n' :: (padSp ind ++ '}' :: rest))))) := by
        rw [dropWs_cons_ws (by decide), hentries, dropWs_pad, dropWs_cons_not (by decide)]
      rw [harg, jsonVal_obj_cons f hdrop (by decide)]
      have hlen3 : (dumpEntriesChars (ind + 2) ((k, v0) :: es)).length + 1 ≤ f := by
        have : (dumpChars ind (.dict ((k, v0) :: es))).length =
            (dumpEntriesChars (ind + 2) ((k, v0) :: es)).length + ind + 4 := by
          simp [dumpChars, padSp]
          omega
        omega
      have hP3 := ih3 (ind + 2) ((k, v0) :: es) (padSp ind) rest
        (by simp [wfKeysEntries, hwf'.2.1, hwf'.2.2]) (by simp)
        (by simp [padSp, isWsCh]) hlen3
      rw [dropWs_cons_ws (by decide), hentries, dropWs_pad, jsonEntries_dropWs]
      have hws2 : ∀ c ∈ padSp (ind + 2), isWsCh c = true := by simp [padSp, isWsCh]
      have hP3' : jsonEntries f ('"' :: (((k.data.map escCh).flatten ++ ['"']) ++
            (':' :: ' ' :: dumpChars (ind + 2) v0 ++
              ((if es.isEmpty then [] else [',', '\n']) ++ (dumpEntriesChars (ind + 2) es ++
                '\n' :: (padSp ind ++ '}' :: rest)))))) =
          some ((k, v0) :: es, rest) := by
        rw [← jsonEntries_ws f hws2, ← hentries]
        exact hP3
      rw [hP3']
      simp [collapseAssoc_self _ hwf'.1]

theorem rt_step_items (f : Nat) (ih1 : RtVal f) (ih2 : RtItems f) : RtItems (f + 1) := by
  intro ind xs ws rest hwf hne hws hlen
  cases xs with
  | nil => exact absurd rfl hne
  | cons x xs' =>
    have hwf' : wfKeys x = true ∧ wfKeysList xs' = true := by
      simpa [wfKeysList] using hwf
    cases xs' with
    | nil =>
      have harg : dumpItemsChars ind [x] ++ '\n' :: (ws ++ ']' :: rest) =
          padSp ind ++ (dumpChars ind x ++ '\n' :: (ws ++ ']' :: rest)) := by
        simp [dumpItemsChars, List.append_assoc]
      have hlen1 : (dumpChars ind x).length ≤ f := by
        have : (dumpItemsChars ind [x]).length = ind + (dumpChars ind x).length := by
          simp [dumpItemsChars, padSp]
        omega
      have hv : jsonVal f (dumpItemsChars ind [x] ++ '\n' :: (ws ++ ']' :: rest)) =
          some (x, '\n' :: (ws ++ ']' :: rest)) := by
        rw [harg, jsonVal_ws f (by simp [padSp, isWsCh])]
        exact ih1 ind x _ hwf'.1 hlen1 (by simp only [headNotDigit]; decide)
      have hdr : dropWs ('\n' :: (ws ++ ']' :: rest)) = ']' :: rest := by
        rw [dropWs_cons_ws (by decide), dropWs_all_ws hws, dropWs_cons_not (by decide)]
      simp only [jsonItems, hv, hdr]
    | cons y ys =>
      have harg : dumpItemsChars ind (x :: y :: ys) ++ '\n' :: (ws ++ ']' :: rest) =
          padSp ind ++ (dumpChars ind x ++ ',' :: '\n' ::
            (dumpItemsChars ind (y :: ys) ++ '\n' :: (ws ++ ']' :: rest))) := by
        simp [dumpItemsChars, List.append_assoc]
      have hlen1 : (dumpChars ind x).length ≤ f ∧
          (dumpItemsChars ind (y :: ys)).length + 1 ≤ f := by
        have : (dumpItemsChars ind (x :: y :: ys)).length =
            ind + (dumpChars ind x).length + 2 + (dumpItemsChars ind (y :: ys)).length := by
          simp [dumpItemsChars, padSp]
          omega
        have hpos := dumpChars_length_pos ind x
        omega
      have hv : jsonVal f (dumpItemsChars ind (x :: y :: ys) ++ '\n' :: (ws ++ ']' :: rest)) =
          some (x, ',' :: '\n' ::
            (dumpItemsChars ind (y :: ys) ++ '\n' :: (ws ++ ']' :: rest))) := by
        rw [harg, jsonVal_ws f (by simp [padSp, isWsCh])]
        exact ih1 ind x _ hwf'.1 hlen1.1 (by simp only [headNotDigit]; decide)
      have hdr : dropWs (',' :: '\n' ::
            (dumpItemsChars ind (y :: ys) ++ '\n' :: (ws ++ ']' :: rest))) =
          ',' :: '\n' :: (dumpItemsChars ind (y :: ys) ++ '\n' :: (ws ++ ']' :: rest)) :=
        dropWs_cons_not (by decide)
      have hrec : jsonItems f (dropWs ('\n' ::
            (dumpItemsChars ind (y :: ys) ++ '\n' :: (ws ++ ']' :: rest)))) =
          some (y :: ys, rest) := by
        rw [dropWs_cons_ws (by decide), jsonItems_dropWs]
        exact ih2 ind (y :: ys) ws rest hwf'.2 (by simp) hws hlen1.2
      simp only [jsonItems, hv, hdr, hrec]
      rfl

theorem rt_step_entries (f : Nat) (ih1 : RtVal f) (ih3 : RtEntries f) :
    RtEntries (f + 1) := by
  intro ind es ws rest hwf hne hws hlen
  cases es with
  | nil => exact absurd rfl hne
  | cons e es' =>
    obtain ⟨k, v0⟩ := e
    have hwf' : wfKeys v0 = true ∧ wfKeysEntries es' = true := by
      simpa [wfKeysEntries] using hwf
    cases es' with
    | nil =>
      have harg : dumpEntriesChars ind [(k, v0)] ++ '\n' :: (ws ++ '}' :: rest) =
          padSp ind ++ ('"' :: ((k.data.map escCh).flatten ++ '"' ::
            (':' :: ' ' :: (dumpChars ind v0 ++ '\n' :: (ws ++ '}' :: rest))))) := by
        simp [dumpEntriesChars, strChars, List.append_assoc]
      have h1 : dropWs (dumpEntriesChars ind [(k, v0)] ++ '\n' :: (ws ++ '}' :: rest)) =
          '"' :: ((k.data.map escCh).flatten ++ '"' ::
            (':' :: ' ' :: (dumpChars ind v0 ++ '\n' :: (ws ++ '}' :: rest)))) := by
        rw [harg, dropWs_pad, dropWs_cons_not (by decide)]
      have h2 : strBody [] ((k.data.map escCh).flatten ++ '"' ::
            (':' :: ' ' :: (dumpChars ind v0 ++ '\n' :: (ws ++ '}' :: rest)))) =
          some (k, ':' :: ' ' :: (dumpChars ind v0 ++ '\n' :: (ws ++ '}' :: rest))) :=
        strBody_strChars k _
      have h3 : dropWs (' ' :: (dumpChars ind v0 ++ '\n' :: (ws ++ '}' :: rest))) =
          dropWs (dumpChars ind v0 ++ '\n' :: (ws ++ '}' :: rest)) :=
        dropWs_cons_ws (by decide)
      have hlen1 : (dumpChars ind v0).length ≤ f := by
        have : (dumpEntriesChars ind [(k, v0)]).length =
            ind + (strChars k).length + 2 + (dumpChars ind v0).length := by
          simp [dumpEntriesChars, padSp, strChars]
          omega
        omega
      have h4 : jsonVal f (dropWs (dumpChars ind v0 ++ '\n' :: (ws ++ '}' :: rest))) =
          some (v0, '\n' :: (ws ++ '}' :: rest)) := by
        rw [jsonVal_dropWs]
        exact ih1 ind v0 _ hwf'.1 hlen1 (by simp only [headNotDigit]; decide)
      have h5 : dropWs ('\n' :: (ws ++ '}' :: rest)) = '}' :: rest := by
        rw [dropWs_cons_ws (by decide), dropWs_all_ws hws, dropWs_cons_not (by decide)]
      simp only [jsonEntries, h1, h2, dropWs_cons_not (show isWsCh ':' = false by decide),
        h3, h4, h5]
    | cons e2 es'' =>
      have harg : dumpEntriesChars ind ((k, v0) :: e2 :: es'') ++
            '\n' :: (ws ++ '}' :: rest) =
          padSp ind ++ ('"' :: ((k.data.map escCh).flatten ++ '"' ::
            (':' :: ' ' :: (dumpChars ind v0 ++ ',' :: '\n' ::
              (dumpEntriesChars ind (e2 :: es'') ++ '\n' :: (ws ++ '}' :: rest)))))) := by
        simp [dumpEntriesChars, strChars, List.append_assoc]
      have h1 : dropWs (dumpEntriesChars ind ((k, v0) :: e2 :: es'') ++
            '\n' :: (ws ++ '}' :: rest)) =
          '"' :: ((k.data.map escCh).flatten ++ '"' ::
            (':' :: ' ' :: (dumpChars ind v0 ++ ',' :: '\n' ::
              (dumpEntriesChars ind (e2 :: es'') ++ '\n' :: (ws ++ '}' :: rest))))) := by
        rw [harg, dropWs_pad, dropWs_cons_not (by decide)]
      have h2 : strBody [] ((k.data.map escCh).flatten ++ '"' ::
            (':' :: ' ' :: (dumpChars ind v0 ++ ',' :: '\n' ::
              (dumpEntriesChars ind (e2 :: es'') ++ '\n' :: (ws ++ '}' :: rest))))) =
          some (k, ':' :: ' ' :: (dumpChars ind v0 ++ ',' :: '\n' ::
            (dumpEntriesChars ind (e2 :: es'') ++ '\n' :: (ws ++ '}' :: rest)))) :=
        strBody_strChars k _
      have h3 : dropWs (' ' :: (dumpChars ind v0 ++ ',' :: '\n' ::
            (dumpEntriesChars ind (e2 :: es'') ++ '\n' :: (ws ++ '}' :: rest)))) =
          dropWs (dumpChars ind v0 ++ ',' :: '\n' ::
            (dumpEntriesChars ind (e2 :: es'') ++ '\n' :: (ws ++ '}' :: rest))) :=
        dropWs_cons_ws (by decide)
      have hlen1 : (dumpChars ind v0).length ≤ f ∧
          (dumpEntriesChars ind (e2 :: es'')).length + 1 ≤ f := by
        have : (dumpEntriesChars ind ((k, v0) :: e2 :: es'')).length =
            ind + (strChars k).length + 2 + (dumpChars ind v0).length + 2 +
              (dumpEntriesChars ind (e2 :: es'')).length := by
          simp [dumpEntriesChars, padSp, strChars]
          omega
        have hpos := dumpChars_length_pos ind v0
        omega
      have h4 : jsonVal f (dropWs (dumpChars ind v0 ++ ',' :: '\n' ::
            (dumpEntriesChars ind (e2 :: es'') ++ '\n' :: (ws ++ '}' :: rest)))) =
          some (v0, ',' :: '\n' ::
            (dumpEntriesChars ind (e2 :: es'') ++ '\n' :: (ws ++ '}' :: rest))) := by
        rw [jsonVal_dropWs]
        exact ih1 ind v0 _ hwf'.1 hlen1.1 (by simp only [headNotDigit]; decide)
      have h5 : dropWs (',' :: '\n' ::
            (dumpEntriesChars ind (e2 :: es'') ++ '\n' :: (ws ++ '}' :: rest))) =
          ',' :: '\n' ::
            (dumpEntriesChars ind (e2 :: es'') ++ '\n' :: (ws ++ '}' :: rest)) :=
        dropWs_cons_not (by decide)
      have hrec : jsonEntries f (dropWs ('\n' ::
            (dumpEntriesChars ind (e2 :: es'') ++ '\n' :: (ws ++ '}' :: rest)))) =
          some (e2 :: es'', rest) := by
        rw [dropWs_cons_ws (by decide), jsonEntries_dropWs]
        exact ih3 ind (e2 :: es'') ws rest hwf'.2 (by simp) hws hlen1.2
      simp only [jsonEntries, h1, h2, dropWs_cons_not (show isWsCh ':' = false by decide),
        h3, h4, h5, hrec]
      rfl

theorem json_roundtrip_all (fuel : Nat) : RtVal fuel ∧ RtItems fuel ∧ RtEntries fuel := by
  induction fuel with
  | zero => exact rt_zero
  | succ f ih =>
    exact ⟨rt_step_val f ih.2.1 ih.2.2, rt_step_items f ih.1 ih.2.1,
      rt_step_entries f ih.1 ih.2.2⟩

theorem pyJsonLoads_dumps (v : PyVal) (hwf : wfKeys v = true) :
    pyJsonLoads (pyJsonDumps v) = some v := by
  have h := (json_roundtrip_all (2 * ((dumpChars 0 v).length + 1))).1 0 v [] hwf
    (by omega) (by decide)
  rw [List.append_nil] at h
  unfold pyJsonLoads pyJsonDumps
  simp only [h]
  rfl

theorem mem_upsertAssoc {α : Type} {l : List (String × α)} {k : String} {v : α}
    {p : String × α} (h : p ∈ upsertAssoc l k v) : p ∈ l ∨ p = (k, v) := by
  induction l with
  | nil => simpa [upsertAssoc] using h
  | cons q rest ih =>
    obtain ⟨k', v'⟩ := q
    by_cases hk : k' = k
    · simp only [upsertAssoc, if_pos hk, List.mem_cons] at h
      rcases h with h | h
      · exact Or.inr h
      · exact Or.inl (by simp [h])
    · simp only [upsertAssoc, if_neg hk, List.mem_cons] at h
      rcases h with h | h
      · exact Or.inl (by simp [h])
      · rcases ih h with h2 | h2
        · exact Or.inl (by simp [h2])
        · exact Or.inr h2

theorem keys_upsertAssoc {α : Type} (l : List (String × α)) (k : String) (v : α) :
    (upsertAssoc l k v).map Prod.fst =
      if k ∈ l.map Prod.fst then l.map Prod.fst else l.map Prod.fst ++ [k] := by
  induction l with
  | nil => simp [upsertAssoc]
  | cons q rest ih =>
    obtain ⟨k', v'⟩ := q
    by_cases hk : k' = k
    · subst hk
      simp [upsertAssoc]
    · simp only [upsertAssoc, if_neg hk, List.map_cons, ih]
      by_cases hm : k ∈ rest.map Prod.fst
      · rw [if_pos hm, if_pos (by simp [hm])]
      · rw [if_neg hm, if_neg (by simp [hm, Ne.symm hk])]
        simp

theorem keys_upsertAssoc_nodup {α : Type} {l : List (String × α)} (k : String) (v : α)
    (h : (l.map Prod.fst).Nodup) : ((upsertAssoc l k v).map Prod.fst).Nodup := by
  rw [keys_upsertAssoc]
  by_cases hm : k ∈ l.map Prod.fst
  · rw [if_pos hm]; exact h
  · rw [if_neg hm]
    simp [List.nodup_append, h, hm]

theorem collapse_foldl_invariant {α : Type} (es : List (String × α)) :
    ∀ acc : List (String × α), (acc.map Prod.fst).Nodup →
      ((es.foldl (fun d p => upsertAssoc d p.1 p.2) acc).map Prod.fst).Nodup ∧
      (∀ p ∈ es.foldl (fun d p => upsertAssoc d p.1 p.2) acc, p ∈ acc ∨ p ∈ es) := by
  induction es with
  | nil => intro acc h; exact ⟨h, fun p hp => Or.inl hp⟩
  | cons q rest ih =>
    intro acc h
    obtain ⟨hnd, hmem⟩ := ih (upsertAssoc acc q.1 q.2) (keys_upsertAssoc_nodup q.1 q.2 h)
    refine ⟨hnd, fun p hp => ?_⟩
    rcases hmem p hp with h2 | h2
    · rcases mem_upsertAssoc h2 with h3 | h3
      · exact Or.inl h3
      · exact Or.inr (by simp [h3])
    · exact Or.inr (by simp [h2])

theorem collapseAssoc_nodup {α : Type} (es : List (String × α)) :
    ((collapseAssoc es).map Prod.fst).Nodup :=
  (collapse_foldl_invariant es [] (by simp)).1

theorem mem_collapseAssoc {α : Type} {es : List (String × α)} {p : String × α}
    (h : p ∈ collapseAssoc es) : p ∈ es := by
  rcases (collapse_foldl_invariant es [] (by simp)).2 p h with h2 | h2
  · simp at h2
  · exact h2

theorem wfKeysList_iff (xs : List PyVal) :
    wfKeysList xs = true ↔ ∀ x ∈ xs, wfKeys x = true := by
  induction xs with
  | nil => simp [wfKeysList]
  | cons x rest ih => simp [wfKeysList, ih]

theorem wfKeysEntries_iff (es : List (String × PyVal)) :
    wfKeysEntries es = true ↔ ∀ p ∈ es, wfKeys p.2 = true := by
  induction es with
  | nil => simp [wfKeysEntries]
  | cons p rest ih =>
    obtain ⟨k, v⟩ := p
    simp [wfKeysEntries, ih]

theorem parse_wf_all (fuel : Nat) :
    (∀ cs v r, jsonVal fuel cs = some (v, r) → wfKeys v = true) ∧
    (∀ cs xs r, jsonItems fuel cs = some (xs, r) → wfKeysList xs = true) ∧
    (∀ cs es r, jsonEntries fuel cs = some (es, r) → wfKeysEntries es = true) := by
  induction fuel with
  | zero =>
    refine ⟨?_, ?_, ?_⟩
    · intro cs a r h
      have h0 : jsonVal 0 cs = Option.none := rfl
      rw [h0] at h
      exact absurd h (by simp)
    · intro cs a r h
      have h0 : jsonItems 0 cs = Option.none := rfl
      rw [h0] at h
      exact absurd h (by simp)
    · intro cs a r h
      have h0 : jsonEntries 0 cs = Option.none := rfl
      rw [h0] at h
      exact absurd h (by simp)
  | succ f ih =>
    obtain ⟨ih1, ih2, ih3⟩ := ih
    refine ⟨?_, ?_, ?_⟩
    · intro cs v r h
      simp only [jsonVal] at h
      split at h
      · simp only [Option.some.injEq, Prod.mk.injEq] at h
        rw [← h.1]
        rfl
      · simp only [Option.some.injEq, Prod.mk.injEq] at h
        rw [← h.1]
        rfl
      · simp only [Option.some.injEq, Prod.mk.injEq] at h
        rw [← h.1]
        rfl
      · rename_i r1 heq
        cases hs : strBody [] r1 with
        | none => rw [hs] at h; exact absurd h (by simp)
        | some p =>
          rw [hs] at h
          simp only [Option.map_some', Option.some.injEq, Prod.mk.injEq] at h
          rw [← h.1]
          rfl
      · rename_i r1 heq
        split at h
        · simp only [Option.some.injEq, Prod.mk.injEq] at h
          rw [← h.1]
          simp [wfKeys, wfKeysList]
        · cases hj : jsonItems f (dropWs r1) with
          | none => rw [hj] at h; exact absurd h (by simp)
          | some p =>
            rw [hj] at h
            simp only [Option.map_some', Option.some.injEq, Prod.mk.injEq] at h
            rw [← h.1]
            exact ih2 _ p.1 p.2 (by rw [hj])
      · rename_i r1 heq
        split at h
        · simp only [Option.some.injEq, Prod.mk.injEq] at h
          rw [← h.1]
          simp [wfKeys, wfKeysEntries]
        · cases hj : jsonEntries f (dropWs r1) with
          | none => rw [hj] at h; exact absurd h (by simp)
          | some p =>
            rw [hj] at h
            simp only [Option.map_some', Option.some.injEq, Prod.mk.injEq] at h
            rw [← h.1]
            have hes : wfKeysEntries p.1 = true := ih3 _ p.1 p.2 (by rw [hj])
            simp only [wfKeys, Bool.and_eq_true, decide_eq_true_eq]
            refine ⟨collapseAssoc_nodup p.1, ?_⟩
            rw [wfKeysEntries_iff]
            intro q hq
            exact (wfKeysEntries_iff p.1).mp hes q (mem_collapseAssoc hq)
      · split at h
        · obtain ⟨p, hx2, hg⟩ := Option.map_eq_some'.mp h
          simp only [Prod.mk.injEq] at hg
          rw [← hg.1]
          rfl
        · exact absurd h (by simp)
      · exact absurd h (by simp)
    · intro cs xs r h
      simp only [jsonItems] at h
      cases hv : jsonVal f cs with
      | none => rw [hv] at h; exact absurd h (by simp)
      | some p =>
        obtain ⟨v1, r1⟩ := p
        simp only [hv] at h
        have hx : wfKeys v1 = true := ih1 cs v1 r1 hv
        split at h
        · rename_i r2 heq
          cases hj : jsonItems f (dropWs r2) with
          | none => rw [hj] at h; exact absurd h (by simp)
          | some q =>
            rw [hj] at h
            simp at h
            rw [← h.1]
            have hrec := ih2 _ q.1 q.2 (by rw [hj])
            simp [wfKeysList, hx, hrec]
        · rename_i r2 heq
          simp only [Option.some.injEq, Prod.mk.injEq] at h
          rw [← h.1]
          simp [wfKeysList, hx]
        · exact absurd h (by simp)
    · intro cs es r h
      simp only [jsonEntries] at h
      split at h
      · rename_i r1 heq
        cases hs : strBody [] r1 with
        | none => rw [hs] at h; exact absurd h (by simp)
        | some kp =>
          obtain ⟨k1, r2⟩ := kp
          simp only [hs] at h
          split at h
          · rename_i r3 heq2
            cases hv : jsonVal f (dropWs r3) with
            | none => rw [hv] at h; exact absurd h (by simp)
            | some p =>
              obtain ⟨v1, r4⟩ := p
              simp only [hv] at h
              have hx : wfKeys v1 = true := ih1 _ v1 r4 hv
              split at h
              · rename_i r5 heq3
                cases hj : jsonEntries f (dropWs r5) with
                | none => rw [hj] at h; exact absurd h (by simp)
                | some q =>
                  rw [hj] at h
                  simp at h
                  rw [← h.1]
                  have hrec := ih3 _ q.1 q.2 (by rw [hj])
                  simp [wfKeysEntries, hx, hrec]
              · rename_i r5 heq3
                simp only [Option.some.injEq, Prod.mk.injEq] at h
                rw [← h.1]
                simp [wfKeysEntries, hx]
              · exact absurd h (by simp)
          · exact absurd h (by simp)
      · exact absurd h (by simp)

theorem pyJsonLoads_wf {s : String} {v : PyVal} (h : pyJsonLoads s = some v) :
    wfKeys v = true := by
  unfold pyJsonLoads at h
  cases hj : jsonVal (2 * (s.data.length + 1)) s.data with
  | none => rw [hj] at h; exact absurd h (by simp)
  | some p =>
    obtain ⟨v1, r1⟩ := p
    simp only [hj] at h
    split at h
    · simp only [Option.some.injEq] at h
      rw [← h]
      exact (parse_wf_all _).1 s.data v1 r1 hj
    · exact absurd h (by simp)

/-- C8: a backup payload that parses as JSON is normalized by
`_clean_backup_data` to a string that parses back to the very same value
(semantic equality regardless of formatting); and when the raw parse and
the unescape-then-reparse attempt both fail, the raw string is returned
unchanged rather than discarded. -/
theorem clean_backup_data_spec (raw : String) :
    (∀ v, pyJsonLoads raw = some v →
      pyJsonLoads (cleanBackupData raw) = some v) ∧
    (pyJsonLoads raw = Option.none → pyJsonLoads (cleanEscapes raw) = Option.none →
      cleanBackupData raw = raw) := by
  constructor
  · intro v hv
    unfold cleanBackupData
    simp only [hv]
    exact pyJsonLoads_dumps v (pyJsonLoads_wf hv)
  · intro h1 h2
    unfold cleanBackupData
    simp only [h1, h2]

theorem clean_backup_data_spec_witness :
    pyJsonLoads (cleanBackupData "\x7b\"a\": 1, \"b\": [true, null]\x7d") =
      some (.dict [("a", .int 1), ("b", .list [.bool true, .none])]) ∧
    cleanBackupData "not json \x7b\x7b" = "not json \x7b\x7b" := by
  constructor
  · exact (clean_backup_data_spec _).1 _ (by rfl)
  · exact (clean_backup_data_spec _).2 (by rfl) (by rfl)
